import Mathlib

set_option maxRecDepth 40000

/-!
Verification of the duplicate-media cleanup engine.

This file gives a shallow embedding, in Lean, of the core functions of the
media-server duplicate cleaner (name normalisation, similarity grouping,
protected-path filtering, tiered official-path matching, container-path
mapping, report parsing/writing and cleanup-script planning), together with
theorems settling the specification claims about those functions.

Modelling conventions:
* Python strings are modelled over their character lists; character classes
  (whitespace, digits, word characters) are modelled at the ASCII level,
  which is the alphabet all of the repository's patterns and reports use.
* Python regular-expression substitution is modelled by an explicit
  left-to-right, non-overlapping scanner (`reSubL`) driven by a per-pattern
  matcher that reports the length of the (leftmost, greedy) match at the
  current position, exactly as the source's `re.sub` calls behave.
* Fallible code (NameError on an undefined variable, AttributeError on a
  `None` access, ValueError/KeyError in size parsing) is modelled with
  `Except`/`Option` results.
* Filesystem and network effects (`Path.resolve`, HTTP fetches, `stat`) are
  modelled as explicit function/data parameters.
-/

/-! ## Python character and string primitives -/

/-- Python `str.split()` / `str.strip()` whitespace, ASCII subset:
space, tab, newline, vertical tab, form feed, carriage return. -/
def pyIsSpace (c : Char) : Bool := decide (c.toNat ∈ ([9, 10, 11, 12, 13, 32] : List Nat))

/-- The separator characters replaced by `re.sub(r'[._-]', ' ', name)`. -/
def isSepChar (c : Char) : Bool := decide (c.toNat ∈ ([46, 95, 45] : List Nat))

/-- Python `str.lower()` on the ASCII range (all patterns are ASCII). -/
def pyLowerChar (c : Char) : Char :=
  if 65 ≤ c.toNat ∧ c.toNat ≤ 90 then Char.ofNat (c.toNat + 32) else c

/-- `\w` for the source's `\b` word boundaries: `[a-zA-Z0-9_]` (ASCII). -/
def isWordChar (c : Char) : Bool := c.isAlphanum || c == '_'

def lowerL (l : List Char) : List Char := l.map pyLowerChar

/-- Python `str.lower()` (ASCII model). -/
def pyLower (s : String) : String := String.mk (lowerL s.data)

/-- Drop trailing characters satisfying `p`. -/
def dropTrailing (p : Char → Bool) (l : List Char) : List Char :=
  (l.reverse.dropWhile p).reverse

/-- Python `str.strip()` on character lists. -/
def pyStripL (l : List Char) : List Char := dropTrailing pyIsSpace (l.dropWhile pyIsSpace)

/-- Python `str.strip()`. -/
def pyStrip (s : String) : String := String.mk (pyStripL s.data)

/-- Helper for `pySplitWsL`: `acc` holds the reversed current word. -/
def splitWsAux : List Char → List Char → List (List Char)
  | [], acc => if acc = [] then [] else [acc.reverse]
  | c :: cs, acc =>
    if pyIsSpace c then
      if acc = [] then splitWsAux cs [] else acc.reverse :: splitWsAux cs []
    else splitWsAux cs (c :: acc)

/-- Python `str.split()` (split on whitespace runs, dropping empty parts). -/
def pySplitWsL (l : List Char) : List (List Char) := splitWsAux l []

/-- `' '.join(words)` on character lists. -/
def joinSpace : List (List Char) → List Char
  | [] => []
  | [w] => w
  | w :: ws => w ++ ' ' :: joinSpace ws

/-- `' '.join(s.split())`: collapse whitespace runs to single spaces and trim. -/
def normSpaceL (l : List Char) : List Char := joinSpace (pySplitWsL l)

/-- `small.isPrefixL big`: Python `big.startswith(small)` at list level. -/
def isPrefixL : List Char → List Char → Bool
  | [], _ => true
  | _ :: _, [] => false
  | p :: ps, c :: cs => p == c && isPrefixL ps cs

/-- Python `s.startswith(t)`. -/
def startsWithPy (s t : String) : Bool := isPrefixL t.data s.data

/-- Substring occurrence at list level (Python `needle in hay`). -/
def substrB (needle : List Char) : List Char → Bool
  | [] => needle.isEmpty
  | c :: cs => isPrefixL needle (c :: cs) || substrB needle cs

/-- Python `needle in hay` for strings. -/
def pyIn (needle hay : String) : Bool := substrB needle.data hay.data

/-! ## The normaliser `clean_media_name` (find_media_dupes.py lines 39-75;
identical in src/find_dupes.py lines 30-48)

`re.sub(pat, '', s)` is modelled by `reSubL m s` where `m prev rest` returns
the length of the match of `pat` at the current position (given the previous
original character, needed for `\b`), or `none`. The scanner walks left to
right and resumes after each match, as `re.sub` does. -/

/-- One `re.sub(pat, '', ·)` pass. `fuel` only bounds recursion; it is set to
the input length plus one, which the scanner (consuming at least one
character per step) never exhausts. -/
def reSubAux (m : Option Char → List Char → Option Nat) :
    Nat → Option Char → List Char → List Char
  | _, _, [] => []
  | 0, _, l => l
  | fuel + 1, prev, c :: cs =>
    match m prev (c :: cs) with
    | some n =>
      if n = 0 then c :: reSubAux m fuel (some c) cs
      else reSubAux m fuel ((c :: cs)[n - 1]?) ((c :: cs).drop n)
    | none => c :: reSubAux m fuel (some c) cs

def reSubL (m : Option Char → List Char → Option Nat) (l : List Char) : List Char :=
  reSubAux m (l.length + 1) none l

/-- Does the pattern match anywhere (same scan as `reSubL`, without removal)? -/
def reHasMatchAux (m : Option Char → List Char → Option Nat) :
    Option Char → List Char → Bool
  | _, [] => false
  | prev, c :: cs => (m prev (c :: cs)).isSome || reHasMatchAux m (some c) cs

def reHasMatch (m : Option Char → List Char → Option Nat) (l : List Char) : Bool :=
  reHasMatchAux m none l

/-- Case-insensitive prefix test against an (already lowercase) pattern. -/
def isCIPrefix : List Char → List Char → Bool
  | [], _ => true
  | _ :: _, [] => false
  | p :: ps, c :: cs => pyLowerChar c == p && isCIPrefix ps cs

/-- Matcher for a literal pattern under `re.IGNORECASE`. -/
def mLit (pat : List Char) : Option Char → List Char → Option Nat := fun _ l =>
  if isCIPrefix pat l then some pat.length else none

/-- Matcher for `[\(\[\.](?:19|20)\d{2}[\)\]\.]?` (the year pass, no flags). -/
def mYear : Option Char → List Char → Option Nat := fun _ l =>
  match l with
  | c :: c1 :: c2 :: c3 :: c4 :: rest =>
    if (c == '(' || c == '[' || c == '.')
        && ((c1 == '1' && c2 == '9') || (c1 == '2' && c2 == '0'))
        && c3.isDigit && c4.isDigit then
      match rest with
      | d :: _ => if d == ')' || d == ']' || d == '.' then some 6 else some 5
      | [] => some 5
    else none
  | _ => none

/-- Matcher for `web-?dl` (greedy option: try `web-dl` before `webdl`). -/
def mWebDl : Option Char → List Char → Option Nat := fun _ l =>
  if isCIPrefix "web-dl".data l then some 6
  else if isCIPrefix "webdl".data l then some 5
  else none

/-- Matcher for `aac\d?`. -/
def mAacD : Option Char → List Char → Option Nat := fun _ l =>
  if isCIPrefix "aac".data l then
    match l.drop 3 with
    | d :: _ => if d.isDigit then some 4 else some 3
    | [] => some 3
  else none

/-- Matcher for `hdr\d*` (greedy digits). -/
def mHdrD : Option Char → List Char → Option Nat := fun _ l =>
  if isCIPrefix "hdr".data l then some (3 + ((l.drop 3).takeWhile Char.isDigit).length)
  else none

/-- Matcher for `-[a-zA-Z0-9]+$` (release group suffix; Python `$` also
matches just before a single trailing newline). -/
def mTrailGroup : Option Char → List Char → Option Nat := fun _ l =>
  match l with
  | '-' :: rest =>
    if rest ≠ [] ∧ rest.all Char.isAlphanum then some l.length
    else if rest.getLast? = some '\n' ∧ rest.dropLast ≠ [] ∧ rest.dropLast.all Char.isAlphanum then
      some (l.length - 1)
    else none
  | _ => none

/-- Matcher for a two-letter word pattern `\bxy\b` under `re.IGNORECASE`. -/
def mWord2 (a b : Char) : Option Char → List Char → Option Nat := fun prev l =>
  match l with
  | c1 :: c2 :: rest =>
    if pyLowerChar c1 == a && pyLowerChar c2 == b
        && (match prev with | some p => !isWordChar p | none => true)
        && (match rest with | r :: _ => !isWordChar r | [] => true) then
      some 2
    else none
  | _ => none

/-- Matcher for `cd[0-9]`. -/
def mCdN : Option Char → List Char → Option Nat := fun _ l =>
  match l with
  | c1 :: c2 :: d :: _ =>
    if pyLowerChar c1 == 'c' && pyLowerChar c2 == 'd' && d.isDigit then some 3 else none
  | _ => none

/-- Matcher for `disc[0-9]`. -/
def mDiscN : Option Char → List Char → Option Nat := fun _ l =>
  match l with
  | c1 :: c2 :: c3 :: c4 :: d :: _ =>
    if pyLowerChar c1 == 'd' && pyLowerChar c2 == 'i' && pyLowerChar c3 == 's'
        && pyLowerChar c4 == 'c' && d.isDigit then some 5 else none
  | _ => none

/-- The `patterns_to_remove` list, in source order. -/
def qualityMatchers : List (Option Char → List Char → Option Nat) :=
  [ mLit "2160p".data, mLit "1080p".data, mLit "720p".data, mLit "480p".data,
    mLit "bluray".data, mWebDl, mLit "webrip".data, mLit "hdtv".data, mLit "dvdrip".data,
    mLit "x264".data, mLit "x265".data, mLit "hevc".data, mLit "xvid".data, mLit "divx".data,
    mAacD, mLit "ac3".data, mLit "dts".data, mLit "hdma".data,
    mLit "repack".data, mLit "proper".data, mLit "extended".data,
    mHdrD, mLit "dv".data, mLit "dolby".data, mLit "atmos".data,
    mTrailGroup, mWord2 'd' 'c', mLit "remux".data, mLit "dubbed".data,
    mWord2 'w' 's', mLit "retail".data, mCdN, mDiscN, mLit "complete".data ]

/-- The metadata-removal passes of `clean_media_name`: the year substitution
followed by the quality/source pattern substitutions, in source order. -/
def removalPassesL (l : List Char) : List Char :=
  qualityMatchers.foldl (fun acc m => reSubL m acc) (reSubL mYear l)

def sepCharMap (c : Char) : Char := if isSepChar c then ' ' else c

/-- `re.sub(r'[._-]', ' ', name)`. -/
def sepSubL (l : List Char) : List Char := l.map sepCharMap

/-- `clean_media_name` at list level: removal passes, separator replacement,
whitespace collapse, lower-case, strip. -/
def cleanL (l : List Char) : List Char :=
  pyStripL (lowerL (normSpaceL (sepSubL (removalPassesL l))))

/-- `clean_media_name` (find_media_dupes.py lines 39-75). -/
def clean_media_name (s : String) : String := String.mk (cleanL s.data)

example : clean_media_name "The.Movie.2160p.HDR.BluRay.x265-GROUP" = "the movie" := by decide
example : clean_media_name "Show Name (2019)" = "show name" := by decide
example : clean_media_name "(20x26420)" = "(2020)" := by decide
example : clean_media_name "(2020)" = "" := by decide

/-! ## The similarity grouper `find_similar_media_folders`
(find_media_dupes.py lines 108-146; src/find_dupes.py lines 75-109 is the
same algorithm except that it does not aggregate the `files` lists)

`difflib.SequenceMatcher(None, a, b).ratio()` is an external library
routine; the grouper is parametrised by the ratio function `ratioFn`, which
lets every theorem about the grouping *policy* (threshold, partitioning)
hold for the actual Ratcliff/Obershelp ratio in particular. -/

structure MediaGroup where
  base_folder : String
  similar_folders : List String
  similarity_scores : List ℚ
  files : List String
deriving DecidableEq

/-- The source's similarity threshold `0.9` (as an exact rational). -/
def similarityThreshold : ℚ := mkRat 9 10

/-- The inner loop over `cleaned_folders.items()`: try to add every entry
`(folder2, clean_name2, files2)` to the current group. Exactly the source's
condition: `folder1 != folder2 and folder2 not in processed and clean_name2`
then `ratio > 0.9`. -/
def addSimilar (ratioFn : String → String → ℚ) (folder1 key1 : String) :
    List (String × String × List String) → MediaGroup → List String →
    MediaGroup × List String
  | [], g, processed => (g, processed)
  | (folder2, key2, files2) :: rest, g, processed =>
    if folder1 ≠ folder2 ∧ folder2 ∉ processed ∧ key2 ≠ "" ∧ ratioFn key1 key2 > similarityThreshold then
      addSimilar ratioFn folder1 key1 rest
        ⟨g.base_folder, g.similar_folders ++ [folder2],
          g.similarity_scores ++ [ratioFn key1 key2], g.files ++ files2⟩
        (folder2 :: processed)
    else addSimilar ratioFn folder1 key1 rest g processed

/-- The outer loop over `cleaned_folders.items()`; `all` is the full cleaned
entry list (the inner loop re-scans it from the start, as the source does),
`pending` the entries still to be visited as bases. A group is emitted only
when it acquired at least one similar member, and only then is its base
marked processed. -/
def groupFolders (ratioFn : String → String → ℚ)
    (all : List (String × String × List String)) :
    List (String × String × List String) → List String → List MediaGroup
  | [], _ => []
  | (folder1, key1, files1) :: pending, processed =>
    if folder1 ∈ processed ∨ key1 = "" then groupFolders ratioFn all pending processed
    else
      let r := addSimilar ratioFn folder1 key1 all ⟨folder1, [], [], files1⟩ processed
      if r.1.similar_folders ≠ [] then
        r.1 :: groupFolders ratioFn all pending (folder1 :: r.2)
      else groupFolders ratioFn all pending r.2

/-- `find_similar_media_folders`: clean every folder name once, then run the
greedy single-pass clustering. `folder_map` is the insertion-ordered folder
index (a Python dict: keys are distinct). -/
def find_similar_media_folders (ratioFn : String → String → ℚ)
    (folder_map : List (String × List String)) : List MediaGroup :=
  let cleaned := folder_map.map (fun p => (p.1, clean_media_name p.1, p.2))
  groupFolders ratioFn cleaned cleaned []

/-- All names a group mentions: its base and its similar members. -/
def MediaGroup.members (g : MediaGroup) : List String :=
  g.base_folder :: g.similar_folders

example :
    find_similar_media_folders (fun _ _ => mkRat 91 100)
      [("Movie.2020.1080p", ["/a/m.mkv"]), ("Movie 2020", ["/b/m.mkv"]), ("Other", ["/c/o.mkv"])] =
    [⟨"Movie.2020.1080p", ["Movie 2020", "Other"], [mkRat 91 100, mkRat 91 100],
      ["/a/m.mkv", "/b/m.mkv", "/c/o.mkv"]⟩] := by decide

/-! ## Path helpers (`os.path` on posix) -/

/-- `os.path.basename`: the part after the last `/`. -/
def basenameL (l : List Char) : List Char :=
  ((l.reverse.takeWhile (fun c => c ≠ '/')).reverse)

def pyBasename (s : String) : String := String.mk (basenameL s.data)

/-- `os.path.dirname` (posixpath): everything up to and including the last
`/`, with trailing slashes stripped unless the head is all slashes. -/
def dirnameL (l : List Char) : List Char :=
  let head := l.take (l.length - (basenameL l).length)
  if head ≠ [] ∧ ¬ head.all (fun c => c = '/') then dropTrailing (fun c => c = '/') head
  else head

def pyDirname (s : String) : String := String.mk (dirnameL s.data)

example : pyBasename "/media/Movies/Film (2020)" = "Film (2020)" := by decide
example : pyBasename "/media/Movies/" = "" := by decide
example : pyDirname "/media/Movies/Film" = "/media/Movies" := by decide
example : pyDirname "/a" = "/" := by decide
example : pyDirname "a" = "" := by decide

/-! ## Protected paths and tiered official-path matching
(get_official_paths.py) -/

/-- `MediaServerPathLookup.is_protected_path` (lines 342-351): a path is
protected when, for some configured root, it equals the root or is nested
under it (`root + '/'` prefix), and its own basename, lower-cased, is one of
the top-level media-category names. -/
def is_protected_path (root_folders_to_ignore : List String) (path : String) : Bool :=
  root_folders_to_ignore.any (fun root_folder =>
    (path = root_folder || startsWithPy path (root_folder ++ "/")) &&
      (["films", "movies", "television", "tv", "videos"].contains (pyLower (pyBasename path))))

example : is_protected_path ["/media/Movies"] "/media/Movies" = true := by decide
example : is_protected_path ["/media/Movies"] "/media/Movies/Film" = false := by decide
example : is_protected_path ["/media"] "/media/Movies" = true := by decide
example : is_protected_path ["/media/Movies"] "/media/MoviesX" = false := by decide

/-- The lazy group of `re.match(r'(.+?)(?:\s+\((\d{4})\))?$', s)`:
whether the remainder can complete the match with the optional year suffix
and the anchor (`$` = end of string, or just before one final newline). -/
def dollarAt (l : List Char) : Bool := l = [] || l = ['\n']

def yearSuffixAt (l : List Char) : Bool :=
  let ws := l.takeWhile pyIsSpace
  let rest := l.dropWhile pyIsSpace
  ws ≠ [] &&
    match rest with
    | '(' :: d1 :: d2 :: d3 :: d4 :: ')' :: tail =>
      d1.isDigit && d2.isDigit && d3.isDigit && d4.isDigit && dollarAt tail
    | _ => false

/-- Characters of `group(1)` after the first: stop as soon as the remainder
completes the pattern (lazy `(.+?)` takes the shortest prefix). -/
def movieG1Aux : List Char → List Char
  | [] => []
  | c :: rest =>
    if dollarAt (c :: rest) || yearSuffixAt (c :: rest) then []
    else c :: movieG1Aux rest

/-- `group(1)` of the movie pattern for a nonempty basename: the name with an
optional trailing ` (YYYY)` year suffix removed. -/
def movieG1 : List Char → List Char
  | [] => []
  | c :: rest => c :: movieG1Aux rest

def movieName (s : String) : String := pyStrip (pyLower (String.mk (movieG1 s.data)))

example : movieName "Film Name (2020)" = "film name" := by decide
example : movieName "A (1999) (2000)" = "a (1999)" := by decide
example : movieName "Plain" = "plain" := by decide

/-- `MediaServerPathLookup.are_related_media_paths` (lines 353-395),
transcribed clause for clause (each early `return True` becomes a
disjunct layer; the final media-directory check is the fallthrough). -/
def are_related_media_paths (path1 path2 folder_name : String) : Bool :=
  let basename1 := pyBasename path1
  let basename2 := pyBasename path2
  if pyLower basename1 = pyLower basename2 then true
  else if folder_name ≠ "" ∧
      (pyLower basename1 = pyLower folder_name ∨ pyLower basename2 = pyLower folder_name) then
    true
  else
    let mediaDirsCheck :=
      let parent1 := pyLower (pyBasename (pyDirname path1))
      let parent2 := pyLower (pyBasename (pyDirname path2))
      (["movies", "television", "tv", "series", "films", "shows"].contains parent1) &&
        (["movies", "television", "tv", "series", "films", "shows"].contains parent2) &&
        (pyLower basename1 = pyLower basename2)
    -- `re.match` on the movie pattern succeeds exactly on nonempty basenames
    if basename1 ≠ "" ∧ basename2 ≠ "" then
      let movie_name1 := movieName basename1
      let movie_name2 := movieName basename2
      if movie_name1 = movie_name2 then true
      else if pyIn movie_name1 movie_name2 || pyIn movie_name2 movie_name1 then true
      else mediaDirsCheck
    else mediaDirsCheck

/-- Per-series/movie details kept by the lookup; only `host_path` is read by
the matching code modelled here. -/
structure CatalogDetails where
  host_path : String
deriving DecidableEq

/-- A value of `folder_to_path_map` (a `{'type','title','host_path'}` dict). -/
structure FolderMapEntry where
  type : String
  title : String
  host_path : String
deriving DecidableEq

/-- The state of `MediaServerPathLookup` used by the matching code, after
the catalog fetches: the folder-name index and the per-title detail dicts
(insertion-ordered, distinct keys), plus the protected-root list. -/
structure LookupState where
  folder_to_path_map : List (String × FolderMapEntry)
  sonarr_series_details : List (String × CatalogDetails)
  radarr_movie_details : List (String × CatalogDetails)
  root_folders_to_ignore : List String
deriving DecidableEq

/-- The result dict of `get_official_path_for_folder`; a direct
folder-name match carries no `match_type` key (`none`). -/
structure OfficialInfo where
  type : String
  title : String
  host_path : String
  match_type : Option String
deriving DecidableEq

/-- The tier-2 per-entry condition: same/contained basenames (lower-cased),
and equal paths, equal parent directories, one path nested under the other,
or the related-media-paths heuristic. -/
def pathCompCond (host_path dup_path folder_name : String) : Bool :=
  (pyLower (pyBasename host_path) = pyLower (pyBasename dup_path) ||
    pyIn (pyLower (pyBasename host_path)) (pyLower (pyBasename dup_path)) ||
    pyIn (pyLower (pyBasename dup_path)) (pyLower (pyBasename host_path))) &&
  (host_path = dup_path ||
    pyDirname host_path = pyDirname dup_path ||
    startsWithPy host_path (dup_path ++ "/") ||
    startsWithPy dup_path (host_path ++ "/") ||
    are_related_media_paths host_path dup_path folder_name)

/-- Tier-2 scan of one catalog: first `(title, details)` whose `host_path`
matches some duplicate path. -/
def pathTierHit (entries : List (String × CatalogDetails)) (folder_name : String)
    (duplicate_paths : List String) : Option (String × String) :=
  entries.findSome? (fun td =>
    if duplicate_paths.any (fun dup_path => pathCompCond td.2.host_path dup_path folder_name) then
      some (td.1, td.2.host_path)
    else none)

/-- The tier-3 fuzzy condition: folder name equals, contains, or is contained
in the catalog basename (lower-cased). -/
def fuzzyCond (folder_name db_folder : String) : Bool :=
  pyLower folder_name = pyLower db_folder ||
    pyIn (pyLower folder_name) (pyLower db_folder) ||
    pyIn (pyLower db_folder) (pyLower folder_name)

/-- Tier-3 scan of one catalog. -/
def fuzzyTierHit (entries : List (String × CatalogDetails)) (folder_name : String) :
    Option (String × String) :=
  entries.findSome? (fun td =>
    if fuzzyCond folder_name (pyBasename td.2.host_path) then some (td.1, td.2.host_path)
    else none)

/-- `MediaServerPathLookup.get_official_path_for_folder` (lines 457-554):
direct folder-name lookup, then path comparison over series then movies,
then (for a truthy folder name) fuzzy name match over series then movies. -/
def get_official_path_for_folder (st : LookupState) (folder_name : String)
    (duplicate_paths : List String) : Option OfficialInfo :=
  match st.folder_to_path_map.lookup folder_name with
  | some e => some ⟨e.type, e.title, e.host_path, none⟩
  | none =>
    match pathTierHit st.sonarr_series_details folder_name duplicate_paths with
    | some th => some ⟨"series", th.1, th.2, some "path_comparison"⟩
    | none =>
      match pathTierHit st.radarr_movie_details folder_name duplicate_paths with
      | some th => some ⟨"movie", th.1, th.2, some "path_comparison"⟩
      | none =>
        if folder_name ≠ "" then
          match fuzzyTierHit st.sonarr_series_details folder_name with
          | some th => some ⟨"series", th.1, th.2, some "fuzzy_name"⟩
          | none =>
            match fuzzyTierHit st.radarr_movie_details folder_name with
            | some th => some ⟨"movie", th.1, th.2, some "fuzzy_name"⟩
            | none => none
        else none

/-- One record of `lookup_duplicate_folders`. -/
structure LookupResult where
  folder : String
  duplicate_paths : List String
  official_info : Option OfficialInfo
deriving DecidableEq

/-- The per-record body of `MediaServerPathLookup.lookup_duplicate_folders`
(lines 429-452), over records already split out of the report text: filter
out protected paths, and only then (if any path survives) run the matching
tiers on the remaining paths. -/
def lookup_duplicate_folders (st : LookupState)
    (records : List (String × List String)) : List LookupResult :=
  records.filterMap (fun r =>
    let duplicate_paths := r.2.filter (fun path => !is_protected_path st.root_folders_to_ignore path)
    if duplicate_paths ≠ [] then
      some ⟨r.1, duplicate_paths, get_official_path_for_folder st r.1 duplicate_paths⟩
    else none)

/-! ## Container-to-host path mapping (get_official_paths.py lines 121-133) -/

structure VolumeMapping where
  service : String
  host_path : String
  container_path : String
deriving DecidableEq

/-- `'/'`-stripping of the left end (`.lstrip('/')`). -/
def lstripSlashes (s : String) : String := String.mk (s.data.dropWhile (fun c => c = '/'))

/-- `os.path.join(a, b)` (posixpath, two arguments). -/
def osJoin (a b : String) : String :=
  if startsWithPy b "/" then b
  else if a = "" ∨ (a.data.getLast? = some '/') then a ++ b
  else a ++ "/" ++ b

/-- Descending container-path length: the sort key of
`sorted(mappings, key=lambda m: len(m['container_path']), reverse=True)`. -/
def mappingGE (a b : VolumeMapping) : Prop :=
  b.container_path.length ≤ a.container_path.length

instance : DecidableRel mappingGE := fun _ _ => Nat.decLe _ _

instance : IsTotal VolumeMapping mappingGE := ⟨fun _ _ => Nat.le_total _ _⟩

instance : IsTrans VolumeMapping mappingGE := ⟨fun _ _ _ h1 h2 => Nat.le_trans h2 h1⟩

/-- `convert_container_path_to_host_path`: sort mappings by container-path
length, descending (Python `sorted` with `reverse=True` is a stable
descending sort, which is exactly what a stable insertion sort on `mappingGE`
computes), take the first whose container path is a prefix, and splice the
host path on; return the input unchanged when nothing matches. -/
def convert_container_path_to_host_path (container_path : String)
    (mappings : List VolumeMapping) : String :=
  let sorted_mappings := List.insertionSort mappingGE mappings
  match sorted_mappings.find? (fun m => startsWithPy container_path m.container_path) with
  | some m =>
    osJoin m.host_path (lstripSlashes (container_path.drop m.container_path.length))
  | none => container_path

example :
    convert_container_path_to_host_path "/data/tv/anime/Show"
      [⟨"sonarr", "/mnt/tv", "/data/tv"⟩, ⟨"sonarr", "/mnt/anime", "/data/tv/anime"⟩] =
    "/mnt/anime/Show" := by decide
example :
    convert_container_path_to_host_path "/other/x"
      [⟨"sonarr", "/mnt/tv", "/data/tv"⟩] = "/other/x" := by decide

/-! ## More Python string routines used by the report parser -/

/-- `str.split(sep)` scanner (`fuel` bounds recursion; it is set to the
input length plus one, never exhausted since each step consumes a
character). `acc` holds the reversed current part. An empty separator is
treated as matching nowhere (Python raises on it; never used here). -/
def splitOnFuel (sep : List Char) : Nat → List Char → List Char → List (List Char)
  | _, [], acc => [acc.reverse]
  | 0, l, acc => [acc.reverse ++ l]
  | fuel + 1, c :: cs, acc =>
    if sep ≠ [] ∧ isPrefixL sep (c :: cs) then
      acc.reverse :: splitOnFuel sep fuel ((c :: cs).drop sep.length) []
    else splitOnFuel sep fuel cs (c :: acc)

/-- Python `s.split(sep)` at list level. -/
def pySplitOnL (sep l : List Char) : List (List Char) := splitOnFuel sep (l.length + 1) l []

/-- Python `s.replace(old, new)` scanner (same fuel convention). -/
def replaceFuel (old new : List Char) : Nat → List Char → List Char
  | _, [] => []
  | 0, l => l
  | fuel + 1, c :: cs =>
    if old ≠ [] ∧ isPrefixL old (c :: cs) then
      new ++ replaceFuel old new fuel ((c :: cs).drop old.length)
    else c :: replaceFuel old new fuel cs

/-- Python `s.replace(old, new)`. -/
def pyReplace (s old new : String) : String :=
  String.mk (replaceFuel old.data new.data (s.data.length + 1) s.data)

example : pySplitOnL " (".data "/a/b (x) (1.00 GB)".data =
  ["/a/b".data, "x)".data, "1.00 GB)".data] := by decide
example : pyReplace "x) y)" ")" "" = "x y" := by decide

/-! ## The cleanup planner (src/cleanup_dupes.py) -/

/-- One parsed group of the duplicate report (`parse_report`'s dict). -/
structure ReportGroup where
  base_folder : Option String
  base_files : List (String × String)
  similar_folders : List String
  similar_files : List (String × String)
deriving DecidableEq

/-- The file-path line handler of `parse_report` (lines 137-146): split the
(stripped) line on `' ('`; the part before is the path (stripped again), the
part after — with every `')'` removed — is the size, or `'Unknown'` when
the line has no `' ('` at all. -/
def parseFileLine (line : String) : String × String :=
  match pySplitOnL " (".data (pyStrip line).data with
  | [] => ("", "Unknown")
  | [p] => (String.mk (pyStripL p), "Unknown")
  | p :: q :: _ => (String.mk (pyStripL p), pyReplace (String.mk q) ")" "")

example : parseFileLine "  /a/b.mkv (1.00 GB)" = ("/a/b.mkv", "1.00 GB") := by decide
example : parseFileLine "  /a/b.mkv" = ("/a/b.mkv", "Unknown") := by decide

def optToList : Option ReportGroup → List ReportGroup
  | some g => [g]
  | none => []

/-- `parse_report` (lines 111-151), one step per input line. Each line is
stripped first; then the delimiter / `Base Folder:` / `Similar Folder` /
`'  /'` prefixes are tried in source order. A `Similar Folder` line met
before any group was opened subscripts `None` (a fault, modelled as
`Except.error`); the other branches guard with `if current_group`. -/
def parseLines : List String → List ReportGroup → Option ReportGroup →
    Except String (List ReportGroup)
  | [], acc, cur => .ok (acc ++ optToList cur)
  | raw :: rest, acc, cur =>
    let line := pyStrip raw
    if startsWithPy line "===" ∧ line.length > 10 then
      parseLines rest (acc ++ optToList cur) (some ⟨none, [], [], []⟩)
    else if startsWithPy line "Base Folder:" then
      match cur with
      | some g =>
        parseLines rest acc
          (some { g with base_folder := some (pyStrip (pyReplace line "Base Folder:" "")) })
      | none => parseLines rest acc none
    else if startsWithPy line "Similar Folder" then
      match cur with
      | some g =>
        parseLines rest acc (some { g with similar_folders := g.similar_folders ++ [line] })
      | none => .error "TypeError: NoneType object is not subscriptable"
    else if startsWithPy line "  /" then
      match cur with
      | some g =>
        if g.similar_folders ≠ [] then
          parseLines rest acc
            (some { g with similar_files := g.similar_files ++ [parseFileLine line] })
        else
          parseLines rest acc
            (some { g with base_files := g.base_files ++ [parseFileLine line] })
      | none => parseLines rest acc cur
    else parseLines rest acc cur

def parse_report (lines : List String) : Except String (List ReportGroup) :=
  parseLines lines [] none

/-- Number grammar of the sizes the report writer emits (`digits[.digits]`),
as `(mantissa, number of fraction digits)`; other floats do not occur in
the reports and are not modelled. -/
def natOfDigits (l : List Char) : ℕ := l.foldl (fun n c => 10 * n + (c.toNat - 48)) 0

def parseFloatQ (l : List Char) : Option (ℕ × ℕ) :=
  let ds1 := l.takeWhile Char.isDigit
  match l.drop ds1.length with
  | [] => if ds1 = [] then none else some (natOfDigits ds1, 0)
  | '.' :: rest2 =>
    let ds2 := rest2.takeWhile Char.isDigit
    if rest2.drop ds2.length ≠ [] then none
    else if ds1 = [] ∧ ds2 = [] then none
    else some (natOfDigits (ds1 ++ ds2), ds2.length)
  | _ => none

def unitBytes : String → Option ℕ
  | "B" => some 1
  | "KB" => some 1024
  | "MB" => some (1024 ^ 2)
  | "GB" => some (1024 ^ 3)
  | "TB" => some (1024 ^ 4)
  | _ => none

/-- `format_size_bytes` (lines 178-185): `'Unknown'` maps to `0` bytes;
otherwise the string must split into exactly a number and a known unit
(anything else raises, modelled as `none`), and the byte count is
`int(float(number) * units[unit])` — an exact floor for these inputs. -/
def format_size_bytes (size_str : String) : Option ℕ :=
  if size_str = "Unknown" then some 0
  else
    match pySplitWsL size_str.data with
    | [numL, unitL] =>
      match parseFloatQ numL, unitBytes (String.mk unitL) with
      | some (num, p), some u => some (num * u / 10 ^ p)
      | _, _ => none
    | _ => none

example : format_size_bytes "Unknown" = some 0 := by decide
example : format_size_bytes "1.00 GB" = some 1073741824 := by decide
example : format_size_bytes "2.50 KB" = some 2560 := by decide
example : format_size_bytes "12.34" = none := by decide

/-- `pathlib` `Path(p).parent` on the (already `resolve()`-normalised)
paths the planner feeds it. -/
def pathlibParent (s : String) : String :=
  if s = "/" then "/"
  else if pyDirname s = "" then "." else pyDirname s

/-- The Sonarr/Radarr path tables of `cleanup_dupes` (the keys of the
`get_series_paths`/`get_movie_paths` caches; their values are never read by
the decision logic). -/
structure ServerPaths where
  sonarrPaths : List String
  radarrPaths : List String

/-- `check_media_server_paths` (lines 153-176): normalise (a filesystem
operation — `Path.resolve` — passed in as `normalizePath`), take the parent,
and look it up in the Sonarr then Radarr path tables. `some server` models
the `{'managed': True, 'server': server, ...}` dict, `none` the
`{'managed': False}` dict. -/
def check_media_server_paths (normalizePath : String → String) (sp : ServerPaths)
    (file_path : String) : Option String :=
  let parent_path := pathlibParent (normalizePath file_path)
  if sp.sonarrPaths.contains parent_path then some "sonarr"
  else if sp.radarrPaths.contains parent_path then some "radarr"
  else none

def statusStr : Option String → String
  | some server => "MANAGED by " ++ server
  | none => "UNMANAGED"

def commentChunk (file size : String) (info : Option String) : String :=
  "# " ++ file ++ " (" ++ size ++ ") - " ++ statusStr info ++ "\n"

def removeChunk (file : String) : String := "safe_remove \"" ++ file ++ "\"\n"

def optStr : Option String → String
  | some s => s
  | none => "None"

/-- Python `max` over the (nonempty, where evaluated) size lists. -/
def pyMax (l : List ℕ) : ℕ := l.foldl max 0

/-- `a > b * 1.5` for the integer byte counts the planner compares
(exact: `1.5 = 3/2`, so this is `2a > 3b`). -/
def gtOneAndHalf (a b : ℕ) : Bool := decide (2 * a > 3 * b)

def sideSizes (files : List (String × String)) : Option (List ℕ) :=
  (files.map Prod.snd).mapM format_size_bytes

/-- `any(info['managed'] for _, _, info in files_info)`: does a side hold at
least one catalog-managed file? -/
def sideManaged (normalizePath : String → String) (sp : ServerPaths)
    (files : List (String × String)) : Bool :=
  files.any (fun fs => (check_media_server_paths normalizePath sp fs.1).isSome)

def sugBaseChunk : String := "# Suggestion: Keep base files (larger size)\n"

def sugSimilarChunk : String := "# Suggestion: Keep similar files (larger size)\n"

def manualChunk : String := "\n# Manual review required - multiple or no managed versions found\n"

/-- The per-group body of `create_cleanup_script` (lines 205-263), emitting
the written strings in order. A malformed size raises inside the manual
branch (the `format_size_bytes` comprehensions), modelled as `Except.error`. -/
def groupSection (normalizePath : String → String) (sp : ServerPaths) (i : ℕ)
    (g : ReportGroup) : Except String (List String) :=
  let base_files_info :=
    g.base_files.map (fun fs => (fs.1, fs.2, check_media_server_paths normalizePath sp fs.1))
  let similar_files_info :=
    g.similar_files.map (fun fs => (fs.1, fs.2, check_media_server_paths normalizePath sp fs.1))
  let base_managed := sideManaged normalizePath sp g.base_files
  let similar_managed := sideManaged normalizePath sp g.similar_files
  let headerChunks :=
    ["\necho \"Processing group " ++ toString i ++ "...\"\n",
     "\n# Group " ++ toString i ++ ": " ++ optStr g.base_folder ++ "\n",
     "\n# Base files:\n"] ++
    base_files_info.map (fun t => commentChunk t.1 t.2.1 t.2.2) ++
    ["\n# Similar files:\n"] ++
    similar_files_info.map (fun t => commentChunk t.1 t.2.1 t.2.2)
  if base_managed && !similar_managed then
    .ok (headerChunks ++
      ["\n# Keeping base files (managed by Sonarr/Radarr) and removing duplicates\n"] ++
      similar_files_info.map (fun t => removeChunk t.1) ++ ["\n"])
  else if similar_managed && !base_managed then
    .ok (headerChunks ++
      ["\n# Keeping similar files (managed by Sonarr/Radarr) and removing duplicates\n"] ++
      base_files_info.map (fun t => removeChunk t.1) ++ ["\n"])
  else
    match sideSizes g.base_files, sideSizes g.similar_files with
    | some base_sizes, some similar_sizes =>
      let sugChunks :=
        if base_sizes ≠ [] ∧ similar_sizes ≠ [] then
          if gtOneAndHalf (pyMax base_sizes) (pyMax similar_sizes) then [sugBaseChunk]
          else if gtOneAndHalf (pyMax similar_sizes) (pyMax base_sizes) then [sugSimilarChunk]
          else []
        else []
      .ok (headerChunks ++
        [manualChunk,
         if base_managed && similar_managed then "# Both versions are managed by Sonarr/Radarr\n"
         else "# No versions are managed by Sonarr/Radarr\n"] ++
        sugChunks ++ ["\n"])
    | _, _ => .error "ValueError: could not parse a size string"

def scriptPreamble : List String :=
  ["#!/bin/bash\n\n",
   "# Duplicate cleanup script\n",
   "# Generated based on Sonarr/Radarr managed paths\n\n",
   "# Function to safely remove files\n",
   "safe_remove() \x7b\n",
   "    file=\"$1\"\n",
   "    if [ -f \"$file\" ]; then\n",
   "        echo \"Removing: $file\"\n",
   "        rm \"$file\"\n",
   "    else\n",
   "        echo \"File not found: $file\"\n",
   "    fi\n",
   "\x7d\n\n"]

def sectionsFrom (normalizePath : String → String) (sp : ServerPaths) :
    ℕ → List ReportGroup → Except String (List String)
  | _, [] => .ok []
  | i, g :: gs => do
    let sec ← groupSection normalizePath sp i g
    let rest ← sectionsFrom normalizePath sp (i + 1) gs
    .ok (sec ++ rest)

/-- `create_cleanup_script` (lines 187-263): the fixed preamble followed by
the per-group sections, numbered from 1. -/
def create_cleanup_script (normalizePath : String → String) (sp : ServerPaths)
    (groups : List ReportGroup) : Except String (List String) := do
  let secs ← sectionsFrom normalizePath sp 1 groups
  .ok (scriptPreamble ++ secs)

/-! ## The report writer of src/find_dupes.py (lines 111-117 and 152-179) -/

/-- Round half to even (what `f"{x:.2f}"` does on the exact dyadic values
`format_size` produces). -/
def rhe (q : ℚ) : ℤ :=
  if q - ⌊q⌋ > mkRat 1 2 then ⌊q⌋ + 1
  else if q - ⌊q⌋ < mkRat 1 2 then ⌊q⌋
  else if ⌊q⌋ % 2 = 0 then ⌊q⌋ else ⌊q⌋ + 1

def pad2 (n : ℕ) : String := if n < 10 then "0" ++ toString n else toString n

/-- `f"{q:.2f}"`. -/
def fmt2 (q : ℚ) : String :=
  let n := rhe (q * 100)
  if n < 0 then "-" ++ toString ((-n).toNat / 100) ++ "." ++ pad2 ((-n).toNat % 100)
  else toString (n.toNat / 100) ++ "." ++ pad2 (n.toNat % 100)

/-- `format_size` (identical in both scanner scripts): repeatedly divide by
1024 through the unit list. -/
def format_size_aux : List String → ℚ → String
  | [], q => fmt2 q ++ " TB"
  | u :: us, q => if q < 1024 then fmt2 q ++ " " ++ u else format_size_aux us (q / 1024)

def format_size (size_bytes : ℚ) : String :=
  format_size_aux ["B", "KB", "MB", "GB", "TB"] size_bytes

def reportDelim : String := String.mk (List.replicate 50 '=')

/-- One file line of the report; `stat` models `file.stat().st_size`
(`none` = the `try` fails and the size is omitted). -/
def fileChunk (stat : String → Option ℚ) (file : String) : String :=
  match stat file with
  | some sz => "  " ++ file ++ " (" ++ format_size sz ++ ")\n"
  | none => "  " ++ file ++ "\n"

/-- The per-group body of `write_report`: after the base-folder header and
file lines, the loop over `zip(similar_folders, similarity_scores)` writes a
`Similar Folder` line and then iterates `folder_map[folder]` — but
`folder_map` is not defined anywhere in `write_report`'s scope, so the first
similar folder raises `NameError`. -/
def groupReportChunks (stat : String → Option ℚ) (g : MediaGroup) :
    Except String (List String) :=
  let pre := ["\n" ++ reportDelim ++ "\n", "Base Folder: " ++ g.base_folder ++ "\n", "Files:\n"] ++
    g.files.map (fileChunk stat)
  match g.similar_folders.zip g.similarity_scores with
  | [] => .ok pre
  | _ :: _ => .error "NameError: name folder_map is not defined"

/-- `write_report` (src/find_dupes.py lines 152-179). -/
def write_report (stat : String → Option ℚ) (results : List MediaGroup) :
    Except String (List String) :=
  if results = [] then
    .ok ["=== Potential Duplicate Media Report ===\n\n", "No potential duplicates found.\n"]
  else do
    let secs ← results.mapM (groupReportChunks stat)
    .ok ("=== Potential Duplicate Media Report ===\n\n" :: secs.flatten)

/-! ## Claim theorems -/

/-- C1: for every configured protected-root list and every candidate path,
if the path is equal to a protected root or nested under one (prefix plus
`'/'`) and the path's own basename, lower-cased, is one of `films, movies,
television, tv, videos`, then the path is filtered out of every record's
duplicate-path list before the matching tiers run, hence is never reported
as a duplicate target of any group. -/
theorem C1_protected_path_never_reported (st : LookupState)
    (records : List (String × List String)) (path : String)
    (hprot : ∃ root ∈ st.root_folders_to_ignore,
      (path = root ∨ startsWithPy path (root ++ "/") = true) ∧
        pyLower (pyBasename path) ∈ ["films", "movies", "television", "tv", "videos"]) :
    path ∉ (lookup_duplicate_folders st records).flatMap LookupResult.duplicate_paths := by
  obtain ⟨root, hroot, hpre, hbase⟩ := hprot
  have hp : is_protected_path st.root_folders_to_ignore path = true := by
    simp only [is_protected_path, List.any_eq_true]
    refine ⟨root, hroot, ?_⟩
    rw [Bool.and_eq_true]
    constructor
    · rcases hpre with h | h
      · simp [h]
      · simp [h]
    · exact List.elem_eq_true_of_mem hbase
  intro hmem
  rw [List.mem_flatMap] at hmem
  obtain ⟨res, hres, hpath⟩ := hmem
  rw [lookup_duplicate_folders, List.mem_filterMap] at hres
  obtain ⟨r, _, hsome⟩ := hres
  by_cases hne : r.2.filter (fun p => !is_protected_path st.root_folders_to_ignore p) ≠ []
  · rw [if_pos hne] at hsome
    cases hsome
    rw [List.mem_filter] at hpath
    rw [hp] at hpath
    simp at hpath
  · rw [if_neg hne] at hsome
    cases hsome

/-- C1 witness: the protected root `/media/Movies` itself never appears as a
reported duplicate path. -/
theorem C1_witness :
    "/media/Movies" ∉
      (lookup_duplicate_folders ⟨[], [], [], ["/media/Movies"]⟩
        [("Movies", ["/media/Movies", "/srv/dupes/Movies"])]).flatMap
        LookupResult.duplicate_paths :=
  C1_protected_path_never_reported _ _ _ (by decide)

/-- C6: the matching tiers are evaluated in the fixed order `direct_name`
(the folder-name index), then `path_comparison` (series then movies), then
`fuzzy_name` (series then movies), first success wins. In particular a
folder name that is an exact key of the folder-to-catalog index always
yields the direct match (no `match_type` key), never a fuzzy one, whatever
fuzzy candidates exist. -/
theorem C6_tier_order (st : LookupState) (folder_name : String)
    (duplicate_paths : List String) :
    (∀ e, st.folder_to_path_map.lookup folder_name = some e →
      get_official_path_for_folder st folder_name duplicate_paths =
        some ⟨e.type, e.title, e.host_path, none⟩) ∧
    (st.folder_to_path_map.lookup folder_name = none →
      ∀ th, pathTierHit st.sonarr_series_details folder_name duplicate_paths = some th →
        get_official_path_for_folder st folder_name duplicate_paths =
          some ⟨"series", th.1, th.2, some "path_comparison"⟩) ∧
    (st.folder_to_path_map.lookup folder_name = none →
      pathTierHit st.sonarr_series_details folder_name duplicate_paths = none →
      ∀ th, pathTierHit st.radarr_movie_details folder_name duplicate_paths = some th →
        get_official_path_for_folder st folder_name duplicate_paths =
          some ⟨"movie", th.1, th.2, some "path_comparison"⟩) ∧
    (st.folder_to_path_map.lookup folder_name = none →
      pathTierHit st.sonarr_series_details folder_name duplicate_paths = none →
      pathTierHit st.radarr_movie_details folder_name duplicate_paths = none →
      folder_name ≠ "" →
      ∀ th, fuzzyTierHit st.sonarr_series_details folder_name = some th →
        get_official_path_for_folder st folder_name duplicate_paths =
          some ⟨"series", th.1, th.2, some "fuzzy_name"⟩) ∧
    (st.folder_to_path_map.lookup folder_name = none →
      pathTierHit st.sonarr_series_details folder_name duplicate_paths = none →
      pathTierHit st.radarr_movie_details folder_name duplicate_paths = none →
      folder_name ≠ "" →
      fuzzyTierHit st.sonarr_series_details folder_name = none →
      ∀ th, fuzzyTierHit st.radarr_movie_details folder_name = some th →
        get_official_path_for_folder st folder_name duplicate_paths =
          some ⟨"movie", th.1, th.2, some "fuzzy_name"⟩) := by
  refine ⟨?_, ?_, ?_, ?_, ?_⟩
  · intro e he
    simp [get_official_path_for_folder, he]
  · intro h0 th h1
    simp [get_official_path_for_folder, h0, h1]
  · intro h0 h1 th h2
    simp [get_official_path_for_folder, h0, h1, h2]
  · intro h0 h1 h2 hne th h3
    simp [get_official_path_for_folder, h0, h1, h2, hne, h3]
  · intro h0 h1 h2 hne h3 th h4
    simp [get_official_path_for_folder, h0, h1, h2, hne, h3, h4]

/-- C6 witness: with `Show` both an exact index key and a fuzzy basename
match of a series entry, the resolver returns the direct match. -/
theorem C6_witness :
    get_official_path_for_folder
        ⟨[("Show", ⟨"series", "Show", "/tv/Show"⟩)], [("Show", ⟨"/tv/Show"⟩)], [], []⟩
        "Show" ["/dup/Show"] =
      some ⟨"series", "Show", "/tv/Show", none⟩ ∧
    fuzzyTierHit [("Show", ⟨"/tv/Show"⟩)] "Show" = some ("Show", "/tv/Show") :=
  ⟨(C6_tier_order _ _ _).1 ⟨"series", "Show", "/tv/Show"⟩ (by decide), by decide⟩

/-- In a `Pairwise r` list, the first element satisfying `p` is `r`-related
to every later element satisfying `p`. -/
theorem pairwise_find?_rel {α : Type} {r : α → α → Prop} {p : α → Bool} :
    ∀ {l : List α}, l.Pairwise r → ∀ {m}, l.find? p = some m →
      ∀ x ∈ l, p x = true → x = m ∨ r m x := by
  intro l
  induction l with
  | nil => intro _ m hf; cases hf
  | cons a t ih =>
    intro hpw m hf x hx hpx
    rw [List.pairwise_cons] at hpw
    rw [List.mem_cons] at hx
    by_cases hpa : p a = true
    · rw [List.find?_cons_of_pos _ hpa] at hf
      cases hf
      rcases hx with rfl | hx
      · exact Or.inl rfl
      · exact Or.inr (hpw.1 x hx)
    · rw [List.find?_cons_of_neg _ (by simpa using hpa)] at hf
      rcases hx with rfl | hx
      · exact absurd hpx hpa
      · exact ih hpw.2 hf x hx hpx

/-- C7: container-to-host translation applies a mapping whose container
path is a prefix of the input of maximal length among all matching
mappings, and leaves a path matched by no mapping unchanged; in particular
`/data/tv/anime/Show` resolves through `/data/tv/anime → /mnt/anime`, not
through `/data/tv → /mnt/tv`. -/
theorem C7_longest_prefix_mapping (container_path : String)
    (mappings : List VolumeMapping) :
    ((∀ m ∈ mappings, startsWithPy container_path m.container_path = false) →
      convert_container_path_to_host_path container_path mappings = container_path) ∧
    (∀ m0 ∈ mappings, startsWithPy container_path m0.container_path = true →
      ∃ m ∈ mappings, startsWithPy container_path m.container_path = true ∧
        (∀ m2 ∈ mappings, startsWithPy container_path m2.container_path = true →
          m2.container_path.length ≤ m.container_path.length) ∧
        convert_container_path_to_host_path container_path mappings =
          osJoin m.host_path
            (lstripSlashes (container_path.drop m.container_path.length))) ∧
    convert_container_path_to_host_path "/data/tv/anime/Show"
        [⟨"sonarr", "/mnt/tv", "/data/tv"⟩, ⟨"sonarr", "/mnt/anime", "/data/tv/anime"⟩] =
      "/mnt/anime/Show" := by
  have hperm := List.perm_insertionSort mappingGE mappings
  refine ⟨?_, ?_, by decide⟩
  · intro hnone
    rw [convert_container_path_to_host_path]
    have : (List.insertionSort mappingGE mappings).find?
        (fun m => startsWithPy container_path m.container_path) = none := by
      rw [List.find?_eq_none]
      intro x hx
      simp [hnone x (hperm.mem_iff.mp hx)]
    rw [this]
  · intro m0 hm0 hp0
    have hsome : ((List.insertionSort mappingGE mappings).find?
        (fun m => startsWithPy container_path m.container_path)).isSome := by
      rw [List.find?_isSome]
      exact ⟨m0, hperm.mem_iff.mpr hm0, hp0⟩
    obtain ⟨m, hfind⟩ := Option.isSome_iff_exists.mp hsome
    have hpm : startsWithPy container_path m.container_path = true :=
      @List.find?_some _ (fun m => startsWithPy container_path m.container_path) m _ hfind
    refine ⟨m, hperm.mem_iff.mp (List.mem_of_find?_eq_some hfind), hpm, ?_, ?_⟩
    · intro m2 hm2 hp2
      have hpw : (List.insertionSort mappingGE mappings).Pairwise mappingGE :=
        List.sorted_insertionSort mappingGE mappings
      rcases pairwise_find?_rel hpw hfind m2 (hperm.mem_iff.mpr hm2) hp2 with rfl | hr
      · exact le_refl _
      · exact hr
    · rw [convert_container_path_to_host_path]
      rw [hfind]

/-- C7 witness: an unmatched path passes through unchanged, and the matched
example picks the longest prefix. -/
theorem C7_witness :
    convert_container_path_to_host_path "/other/x"
        [⟨"sonarr", "/mnt/tv", "/data/tv"⟩] = "/other/x" ∧
    (∃ m ∈ [VolumeMapping.mk "sonarr" "/mnt/tv" "/data/tv",
            VolumeMapping.mk "sonarr" "/mnt/anime" "/data/tv/anime"],
      startsWithPy "/data/tv/anime/Show" m.container_path = true ∧
        (∀ m2 ∈ [VolumeMapping.mk "sonarr" "/mnt/tv" "/data/tv",
                 VolumeMapping.mk "sonarr" "/mnt/anime" "/data/tv/anime"],
          startsWithPy "/data/tv/anime/Show" m2.container_path = true →
            m2.container_path.length ≤ m.container_path.length) ∧
        convert_container_path_to_host_path "/data/tv/anime/Show"
            [⟨"sonarr", "/mnt/tv", "/data/tv"⟩, ⟨"sonarr", "/mnt/anime", "/data/tv/anime"⟩] =
          osJoin m.host_path
            (lstripSlashes ("/data/tv/anime/Show".drop m.container_path.length))) :=
  ⟨(C7_longest_prefix_mapping "/other/x" _).1 (by decide),
    (C7_longest_prefix_mapping "/data/tv/anime/Show" _).2.1
      ⟨"sonarr", "/mnt/tv", "/data/tv"⟩ (by decide) (by decide)⟩

deriving instance DecidableEq for Except

/-- C8 (code bug): `write_report` does NOT complete on grouper output.
Every group the grouper emits has a nonempty `similar_folders` list, and the
similar-folder loop of `write_report` reads `folder_map[folder]` with no
`folder_map` in scope — a `NameError`. Here the code is evaluated at a
two-folder index whose names normalise to the same key: the grouper yields
one group and writing the report faults. -/
theorem C8_write_report_faults :
    write_report (fun _ => none)
        (find_similar_media_folders (fun _ _ => mkRat 91 100)
          [("Movie.2020.1080p", []), ("Movie 2020", [])]) =
      .error "NameError: name folder_map is not defined" := by decide

/-- C9 (code bug): `parse_report` records no file path at all — neither as a
base-side nor as a similar-side file — because each line is stripped before
the `'  /'` prefix test, which therefore never succeeds. Evaluated at a
report with one path line before and one after the `Similar Folder` line:
both `base_files` and `similar_files` come back empty. -/
theorem C9_parse_report_drops_paths :
    parse_report
        [reportDelim, "Base Folder: Show", "Files:",
         "  /a/Show/e1.mkv (1.00 GB)",
         "Similar Folder (similarity: 0.95): Show Name",
         "  /b/Show Name/e1.mkv (1.05 GB)"] =
      .ok [⟨some "Show", [], ["Similar Folder (similarity: 0.95): Show Name"], []⟩] := by
  decide

/-- A separator that occurs nowhere leaves `str.split(sep)` with one part. -/
theorem splitOnFuel_no_occurrence (sep : List Char) :
    ∀ (l : List Char) (fuel : Nat) (acc : List Char),
      l.length ≤ fuel → substrB sep l = false →
      splitOnFuel sep fuel l acc = [acc.reverse ++ l] := by
  intro l
  induction l with
  | nil =>
    intro fuel acc _ _
    cases fuel <;> simp [splitOnFuel]
  | cons c cs ih =>
    intro fuel acc hlen hsub
    rw [substrB, Bool.or_eq_false_iff] at hsub
    cases fuel with
    | zero => simp at hlen
    | succ f =>
      rw [splitOnFuel, if_neg (by simp [hsub.1])]
      rw [ih f (c :: acc) (by simpa using hlen) hsub.2]
      simp

/-- All-`Unknown` sizes parse to an all-zero size list. -/
theorem sideSizes_unknown :
    ∀ (files : List (String × String)), (∀ fs ∈ files, fs.2 = "Unknown") →
      sideSizes files = some (files.map fun _ => 0) := by
  intro files
  induction files with
  | nil => intro _; rfl
  | cons a t ih =>
    intro h
    have ha : a.2 = "Unknown" := h a (List.mem_cons_self a t)
    have ht := ih (fun fs hfs => h fs (List.mem_cons_of_mem a hfs))
    rw [sideSizes] at ht ⊢
    simp only [List.map_cons, List.mapM_cons, ha, ht]
    rfl

theorem pyMax_all_zero : ∀ (l : List (String × String)), pyMax (l.map fun _ => 0) = 0 := by
  intro l
  have : ∀ (acc : ℕ) (t : List ℕ), (∀ x ∈ t, x = 0) → t.foldl max acc = max acc 0 := by
    intro acc t
    induction t generalizing acc with
    | nil => intro _; simp
    | cons b t2 ih =>
      intro h
      rw [List.foldl_cons, h b (List.mem_cons_self b t2), ih (max acc 0)
        (fun x hx => h x (List.mem_cons_of_mem b hx))]
      simp
  rw [pyMax, this 0 _ (by simp)]
  simp

/-- Case analysis of `groupSection` in the manual-review branch. -/
theorem groupSection_manual_spec (np : String → String) (sp : ServerPaths) (i : ℕ)
    (g : ReportGroup) (bs ss : List ℕ)
    (hm : sideManaged np sp g.base_files = sideManaged np sp g.similar_files)
    (hbs : sideSizes g.base_files = some bs) (hss : sideSizes g.similar_files = some ss) :
    groupSection np sp i g = .ok (
      (["\necho \"Processing group " ++ toString i ++ "...\"\n",
        "\n# Group " ++ toString i ++ ": " ++ optStr g.base_folder ++ "\n",
        "\n# Base files:\n"] ++
       g.base_files.map (fun fs => commentChunk fs.1 fs.2 (check_media_server_paths np sp fs.1)) ++
       ["\n# Similar files:\n"] ++
       g.similar_files.map (fun fs => commentChunk fs.1 fs.2 (check_media_server_paths np sp fs.1))) ++
      [manualChunk,
       if sideManaged np sp g.base_files && sideManaged np sp g.similar_files then
         "# Both versions are managed by Sonarr/Radarr\n"
       else "# No versions are managed by Sonarr/Radarr\n"] ++
      (if bs ≠ [] ∧ ss ≠ [] then
        if gtOneAndHalf (pyMax bs) (pyMax ss) then [sugBaseChunk]
        else if gtOneAndHalf (pyMax ss) (pyMax bs) then [sugSimilarChunk]
        else []
      else []) ++ ["\n"]) := by
  rw [groupSection, ← hm, Bool.and_not_self]
  rw [if_neg (by simp : ¬ (false = true))]
  rw [if_neg (by simp : ¬ (false = true))]
  rw [hbs, hss]
  simp [List.map_map, Function.comp_def]

/-- Case analysis of `groupSection` when only the base side is managed. -/
theorem groupSection_remove_similar_spec (np : String → String) (sp : ServerPaths) (i : ℕ)
    (g : ReportGroup)
    (h1 : sideManaged np sp g.base_files = true)
    (h2 : sideManaged np sp g.similar_files = false) :
    groupSection np sp i g = .ok (
      (["\necho \"Processing group " ++ toString i ++ "...\"\n",
        "\n# Group " ++ toString i ++ ": " ++ optStr g.base_folder ++ "\n",
        "\n# Base files:\n"] ++
       g.base_files.map (fun fs => commentChunk fs.1 fs.2 (check_media_server_paths np sp fs.1)) ++
       ["\n# Similar files:\n"] ++
       g.similar_files.map (fun fs => commentChunk fs.1 fs.2 (check_media_server_paths np sp fs.1))) ++
      ["\n# Keeping base files (managed by Sonarr/Radarr) and removing duplicates\n"] ++
      g.similar_files.map (fun fs => removeChunk fs.1) ++ ["\n"]) := by
  rw [groupSection, h1, h2]
  simp [List.map_map, Function.comp_def]

/-- Case analysis of `groupSection` when only the similar side is managed. -/
theorem groupSection_remove_base_spec (np : String → String) (sp : ServerPaths) (i : ℕ)
    (g : ReportGroup)
    (h1 : sideManaged np sp g.base_files = false)
    (h2 : sideManaged np sp g.similar_files = true) :
    groupSection np sp i g = .ok (
      (["\necho \"Processing group " ++ toString i ++ "...\"\n",
        "\n# Group " ++ toString i ++ ": " ++ optStr g.base_folder ++ "\n",
        "\n# Base files:\n"] ++
       g.base_files.map (fun fs => commentChunk fs.1 fs.2 (check_media_server_paths np sp fs.1)) ++
       ["\n# Similar files:\n"] ++
       g.similar_files.map (fun fs => commentChunk fs.1 fs.2 (check_media_server_paths np sp fs.1))) ++
      ["\n# Keeping similar files (managed by Sonarr/Radarr) and removing duplicates\n"] ++
      g.base_files.map (fun fs => removeChunk fs.1) ++ ["\n"]) := by
  rw [groupSection, h1, h2]
  simp [List.map_map, Function.comp_def]

/-- C10: a path line with no `' ('` size annotation parses with size
`'Unknown'`; `format_size_bytes` maps `'Unknown'` to `0` bytes; and in the
manual-review branch a similar side consisting only of unknown-size files is
compared with largest size `0`, so the 1.5-times keep suggestion fires
against it as soon as the base side's largest parsed size is positive. -/
theorem C10_unknown_sizes :
    (∀ line : String, pyIn " (" (pyStrip line) = false →
      (parseFileLine line).2 = "Unknown") ∧
    format_size_bytes "Unknown" = some 0 ∧
    (∀ (np : String → String) (sp : ServerPaths) (i : ℕ) (g : ReportGroup) (bs : List ℕ),
      sideManaged np sp g.base_files = sideManaged np sp g.similar_files →
      sideSizes g.base_files = some bs → 0 < pyMax bs →
      g.similar_files ≠ [] → (∀ fs ∈ g.similar_files, fs.2 = "Unknown") →
      ∃ sec, groupSection np sp i g = .ok sec ∧ sugBaseChunk ∈ sec) := by
  refine ⟨?_, by decide, ?_⟩
  · intro line hline
    rw [parseFileLine]
    have hsplit : pySplitOnL " (".data (pyStrip line).data = [(pyStrip line).data] := by
      rw [pySplitOnL]
      have := splitOnFuel_no_occurrence " (".data (pyStrip line).data
        ((pyStrip line).data.length + 1) [] (by omega) hline
      simpa using this
    rw [hsplit]
  · intro np sp i g bs hm hbs hpos hsf hunk
    have hss := sideSizes_unknown g.similar_files hunk
    have hzero := pyMax_all_zero g.similar_files
    have hbne : bs ≠ [] := by
      intro h
      rw [h] at hpos
      simp [pyMax] at hpos
    have hsug : gtOneAndHalf (pyMax bs) (pyMax (g.similar_files.map fun _ => 0)) = true := by
      rw [hzero, gtOneAndHalf]
      simpa using hpos
    refine ⟨_, groupSection_manual_spec np sp i g bs _ hm hbs hss, ?_⟩
    have hcond : bs ≠ [] ∧ (List.map (fun _ => (0 : ℕ)) g.similar_files) ≠ [] :=
      ⟨hbne, by simpa using hsf⟩
    rw [if_pos hcond, hsug]
    simp

/-- C10 witness: a concrete manual-review group whose similar side has only
an unknown-size file and whose base side has a 2.00 GB file gets the
keep-base suggestion. -/
theorem C10_witness :
    (parseFileLine "  /a/b.mkv").2 = "Unknown" ∧
    format_size_bytes "Unknown" = some 0 ∧
    ∃ sec,
      groupSection (fun s => s) ⟨[], []⟩ 1
          ⟨some "X", [("/a/b.mkv", "2.00 GB")], ["Similar Folder: Y"],
            [("/c/b.mkv", "Unknown")]⟩ = .ok sec ∧
      sugBaseChunk ∈ sec :=
  ⟨C10_unknown_sizes.1 "  /a/b.mkv" (by decide), C10_unknown_sizes.2.1,
    C10_unknown_sizes.2.2 (fun s => s) ⟨[], []⟩ 1
      ⟨some "X", [("/a/b.mkv", "2.00 GB")], ["Similar Folder: Y"], [("/c/b.mkv", "Unknown")]⟩
      [2147483648] (by decide) (by decide) (by decide) (by decide) (by decide)⟩

/-- A removal invocation line of the generated script. -/
def isRemoveChunk (c : String) : Bool := isPrefixL "safe_remove".data c.data

theorem isRemoveChunk_removeChunk (f : String) : isRemoveChunk (removeChunk f) = true := rfl

theorem isRemoveChunk_commentChunk (a b : String) (inf : Option String) :
    isRemoveChunk (commentChunk a b inf) = false := rfl

theorem isRemoveChunk_echo (x y : String) :
    isRemoveChunk ("\necho \"Processing group " ++ x ++ y) = false := rfl

theorem isRemoveChunk_groupLine (x y z w : String) :
    isRemoveChunk ("\n# Group " ++ x ++ y ++ z ++ w) = false := rfl

theorem isRemoveChunk_baseHdr : isRemoveChunk "\n# Base files:\n" = false := rfl

theorem isRemoveChunk_simHdr : isRemoveChunk "\n# Similar files:\n" = false := rfl

theorem isRemoveChunk_keepBase :
    isRemoveChunk "\n# Keeping base files (managed by Sonarr/Radarr) and removing duplicates\n" =
      false := rfl

theorem isRemoveChunk_keepSimilar :
    isRemoveChunk "\n# Keeping similar files (managed by Sonarr/Radarr) and removing duplicates\n" =
      false := rfl

theorem isRemoveChunk_manual : isRemoveChunk manualChunk = false := rfl

theorem isRemoveChunk_both :
    isRemoveChunk "# Both versions are managed by Sonarr/Radarr\n" = false := rfl

theorem isRemoveChunk_noVersions :
    isRemoveChunk "# No versions are managed by Sonarr/Radarr\n" = false := rfl

theorem isRemoveChunk_sugBase : isRemoveChunk sugBaseChunk = false := rfl

theorem isRemoveChunk_sugSimilar : isRemoveChunk sugSimilarChunk = false := rfl

theorem isRemoveChunk_nl : isRemoveChunk "\n" = false := rfl

/-- Every comment line about a file contains the `'-'` of its `' - '`
status separator; the suggestion lines contain no `'-'` at all, so a file
comment is never mistaken for a suggestion line. -/
theorem dash_mem_commentChunk (a b : String) (inf : Option String) :
    '-' ∈ (commentChunk a b inf).data := by
  rw [commentChunk]
  simp only [String.data_append, List.mem_append]
  refine Or.inl (Or.inl (Or.inr ?_))
  decide

theorem commentChunk_ne_sugBase (a b : String) (inf : Option String) :
    commentChunk a b inf ≠ sugBaseChunk := by
  intro h
  have hd := dash_mem_commentChunk a b inf
  rw [h] at hd
  revert hd
  decide

theorem commentChunk_ne_sugSimilar (a b : String) (inf : Option String) :
    commentChunk a b inf ≠ sugSimilarChunk := by
  intro h
  have hd := dash_mem_commentChunk a b inf
  rw [h] at hd
  revert hd
  decide

theorem ne_of_data_head {s t : String} (h : s.data.head? ≠ t.data.head?) : s ≠ t :=
  fun he => h (by rw [he])

theorem echo_ne_sugBase (x y : String) :
    ("\necho \"Processing group " ++ x ++ y) ≠ sugBaseChunk :=
  ne_of_data_head (by intro h; cases h)

theorem echo_ne_sugSimilar (x y : String) :
    ("\necho \"Processing group " ++ x ++ y) ≠ sugSimilarChunk :=
  ne_of_data_head (by intro h; cases h)

theorem groupLine_ne_sugBase (x y z w : String) :
    ("\n# Group " ++ x ++ y ++ z ++ w) ≠ sugBaseChunk :=
  ne_of_data_head (by intro h; cases h)

theorem groupLine_ne_sugSimilar (x y z w : String) :
    ("\n# Group " ++ x ++ y ++ z ++ w) ≠ sugSimilarChunk :=
  ne_of_data_head (by intro h; cases h)

/-- Membership of a suggestion-like line in a manual-review section must
come from the suggestion sublist: it equals none of the other chunks. -/
theorem mem_manual_sec_elim (np : String → String) (sp : ServerPaths) (i : ℕ)
    (g : ReportGroup) (w s : String) (sug : List String)
    (hcomment : ∀ a b inf, commentChunk a b inf ≠ s)
    (hecho : ∀ x y, ("\necho \"Processing group " ++ x ++ y) ≠ s)
    (hgroup : ∀ x y z w2, ("\n# Group " ++ x ++ y ++ z ++ w2) ≠ s)
    (hw : w ≠ s)
    (hf1 : s ≠ "\n# Base files:\n") (hf2 : s ≠ "\n# Similar files:\n")
    (hf3 : s ≠ manualChunk) (hf4 : s ≠ "\n")
    (hmem : s ∈
      (["\necho \"Processing group " ++ toString i ++ "...\"\n",
        "\n# Group " ++ toString i ++ ": " ++ optStr g.base_folder ++ "\n",
        "\n# Base files:\n"] ++
       g.base_files.map (fun fs => commentChunk fs.1 fs.2 (check_media_server_paths np sp fs.1)) ++
       ["\n# Similar files:\n"] ++
       g.similar_files.map (fun fs => commentChunk fs.1 fs.2 (check_media_server_paths np sp fs.1))) ++
      [manualChunk, w] ++ sug ++ ["\n"]) :
    s ∈ sug := by
  rcases List.mem_append.mp hmem with h | h
  · rcases List.mem_append.mp h with h | h
    · rcases List.mem_append.mp h with h | h
      · rcases List.mem_append.mp h with h | h
        · rcases List.mem_append.mp h with h | h
          · rcases List.mem_append.mp h with h | h
            · simp only [List.mem_cons, List.not_mem_nil, or_false] at h
              rcases h with h | h | h
              · exact absurd h.symm (hecho _ _)
              · exact absurd h.symm (hgroup _ _ _ _)
              · exact absurd h hf1
            · rcases List.mem_map.mp h with ⟨fs, _, heq⟩
              exact absurd heq (hcomment _ _ _)
          · simp only [List.mem_singleton] at h
            exact absurd h hf2
        · rcases List.mem_map.mp h with ⟨fs, _, heq⟩
          exact absurd heq (hcomment _ _ _)
      · simp only [List.mem_cons, List.not_mem_nil, or_false] at h
        rcases h with h | h
        · exact absurd h hf3
        · exact absurd h.symm hw
    · exact h
  · simp only [List.mem_singleton] at h
    exact absurd h hf4

theorem filter_remove_sug (c1 c2 c3 : Prop) [Decidable c1] [Decidable c2] [Decidable c3] :
    List.filter isRemoveChunk
      (if c1 then
        (if c2 then [sugBaseChunk] else if c3 then [sugSimilarChunk] else [])
      else []) = [] := by
  split_ifs <;>
    simp [List.filter_cons, List.filter_nil, isRemoveChunk_sugBase, isRemoveChunk_sugSimilar]

/-- C2: the planner's decision policy. If exactly one side holds a
catalog-managed file, the group's script section contains a removal
invocation for exactly the files of the unmanaged side (so every unmanaged
file and no managed-side file is removed); if both or neither side is
managed, the section contains no removal invocation, carries the
manual-review comment, and carries a size-based keep suggestion exactly when
one side's largest parsed file size strictly exceeds 1.5 times the other
side's. -/
theorem C2_cleanup_script_policy (np : String → String) (sp : ServerPaths) (i : ℕ)
    (g : ReportGroup) :
    (sideManaged np sp g.base_files = true → sideManaged np sp g.similar_files = false →
      ∃ sec, groupSection np sp i g = .ok sec ∧
        sec.filter isRemoveChunk = g.similar_files.map (fun fs => removeChunk fs.1)) ∧
    (sideManaged np sp g.base_files = false → sideManaged np sp g.similar_files = true →
      ∃ sec, groupSection np sp i g = .ok sec ∧
        sec.filter isRemoveChunk = g.base_files.map (fun fs => removeChunk fs.1)) ∧
    (sideManaged np sp g.base_files = sideManaged np sp g.similar_files →
      ∀ bs ss, sideSizes g.base_files = some bs → sideSizes g.similar_files = some ss →
        ∃ sec, groupSection np sp i g = .ok sec ∧
          sec.filter isRemoveChunk = [] ∧ manualChunk ∈ sec ∧
          (bs ≠ [] → ss ≠ [] →
            ((sugBaseChunk ∈ sec ∨ sugSimilarChunk ∈ sec) ↔
              (gtOneAndHalf (pyMax bs) (pyMax ss) = true ∨
                gtOneAndHalf (pyMax ss) (pyMax bs) = true)))) := by
  refine ⟨?_, ?_, ?_⟩
  · intro h1 h2
    refine ⟨_, groupSection_remove_similar_spec np sp i g h1 h2, ?_⟩
    simp [List.filter_append, List.filter_map, Function.comp_def, List.filter_cons,
      List.filter_nil, isRemoveChunk_echo, isRemoveChunk_groupLine, isRemoveChunk_baseHdr,
      isRemoveChunk_simHdr, isRemoveChunk_commentChunk, isRemoveChunk_keepBase,
      isRemoveChunk_removeChunk, isRemoveChunk_nl]
  · intro h1 h2
    refine ⟨_, groupSection_remove_base_spec np sp i g h1 h2, ?_⟩
    simp [List.filter_append, List.filter_map, Function.comp_def, List.filter_cons,
      List.filter_nil, isRemoveChunk_echo, isRemoveChunk_groupLine, isRemoveChunk_baseHdr,
      isRemoveChunk_simHdr, isRemoveChunk_commentChunk, isRemoveChunk_keepSimilar,
      isRemoveChunk_removeChunk, isRemoveChunk_nl]
  · intro hm bs ss hbs hss
    refine ⟨_, groupSection_manual_spec np sp i g bs ss hm hbs hss, ?_, ?_, ?_⟩
    · simp only [List.filter_append, filter_remove_sug]
      simp [List.filter_map, Function.comp_def, List.filter_cons, List.filter_nil,
        isRemoveChunk_echo, isRemoveChunk_groupLine, isRemoveChunk_baseHdr,
        isRemoveChunk_simHdr, isRemoveChunk_commentChunk, isRemoveChunk_manual,
        isRemoveChunk_both, isRemoveChunk_noVersions, isRemoveChunk_nl]
      split <;> decide
    · simp
    · intro hbne hsne
      constructor
      · intro hs
        by_cases h1 : gtOneAndHalf (pyMax bs) (pyMax ss) = true
        · exact Or.inl h1
        · by_cases h2 : gtOneAndHalf (pyMax ss) (pyMax bs) = true
          · exact Or.inr h2
          · exfalso
            have hcond : bs ≠ [] ∧ ss ≠ [] := ⟨hbne, hsne⟩
            rw [if_pos hcond, if_neg h1, if_neg h2] at hs
            rcases hs with hs | hs
            · have := mem_manual_sec_elim np sp i g _ sugBaseChunk []
                commentChunk_ne_sugBase echo_ne_sugBase groupLine_ne_sugBase
                (by split_ifs <;> decide) (by decide) (by decide) (by decide) (by decide) hs
              simp at this
            · have := mem_manual_sec_elim np sp i g _ sugSimilarChunk []
                commentChunk_ne_sugSimilar echo_ne_sugSimilar groupLine_ne_sugSimilar
                (by split_ifs <;> decide) (by decide) (by decide) (by decide) (by decide) hs
              simp at this
      · intro hc
        have hcond : bs ≠ [] ∧ ss ≠ [] := ⟨hbne, hsne⟩
        rw [if_pos hcond]
        rcases hc with h1 | h1
        · rw [if_pos h1]
          left
          simp
        · by_cases h2 : gtOneAndHalf (pyMax bs) (pyMax ss) = true
          · rw [if_pos h2]
            left
            simp
          · rw [if_neg h2, if_pos h1]
            right
            simp

/-- C2 witness: a group whose base side is Sonarr-managed gets exactly the
similar side removed; an unmanaged group with a 4 GB base file versus a 1 GB
similar file gets manual review plus the keep-base suggestion. -/
theorem C2_witness :
    (∃ sec, groupSection (fun s => s) ⟨["/tv/Show"], []⟩ 1
        ⟨some "Show", [("/tv/Show/e1.mkv", "1.00 GB")],
          ["Similar Folder (similarity: 0.95): Show 2"],
          [("/bak/Show/e1.mkv", "1.00 GB")]⟩ = .ok sec ∧
      sec.filter isRemoveChunk =
        [(("/bak/Show/e1.mkv", "1.00 GB") : String × String)].map
          (fun fs => removeChunk fs.1)) ∧
    (∃ sec, groupSection (fun s => s) ⟨[], []⟩ 2
        ⟨some "Show", [("/a/e1.mkv", "4.00 GB")],
          ["Similar Folder (similarity: 0.95): Show 2"],
          [("/b/e1.mkv", "1.00 GB")]⟩ = .ok sec ∧
      sec.filter isRemoveChunk = [] ∧ manualChunk ∈ sec ∧
      (([4294967296] : List ℕ) ≠ [] → ([1073741824] : List ℕ) ≠ [] →
        ((sugBaseChunk ∈ sec ∨ sugSimilarChunk ∈ sec) ↔
          (gtOneAndHalf (pyMax [4294967296]) (pyMax [1073741824]) = true ∨
            gtOneAndHalf (pyMax [1073741824]) (pyMax [4294967296]) = true)))) :=
  ⟨(C2_cleanup_script_policy (fun s => s) ⟨["/tv/Show"], []⟩ 1
      ⟨some "Show", [("/tv/Show/e1.mkv", "1.00 GB")],
        ["Similar Folder (similarity: 0.95): Show 2"],
        [("/bak/Show/e1.mkv", "1.00 GB")]⟩).1 (by decide) (by decide),
    (C2_cleanup_script_policy (fun s => s) ⟨[], []⟩ 2
      ⟨some "Show", [("/a/e1.mkv", "4.00 GB")],
        ["Similar Folder (similarity: 0.95): Show 2"],
        [("/b/e1.mkv", "1.00 GB")]⟩).2.2 (by decide) [4294967296] [1073741824]
      (by decide) (by decide)⟩

/-- The inner grouping loop only appends fresh, pairwise-distinct names that
differ from the base, and records exactly those names as processed. -/
theorem addSimilar_spec (ratioFn : String → String → ℚ) (folder1 key1 : String) :
    ∀ (entries : List (String × String × List String)) (g : MediaGroup)
      (processed : List String),
      ∃ new : List String,
        (addSimilar ratioFn folder1 key1 entries g processed).1.similar_folders =
          g.similar_folders ++ new ∧
        (addSimilar ratioFn folder1 key1 entries g processed).1.base_folder = g.base_folder ∧
        (∀ x ∈ new, x ∉ processed ∧ x ≠ folder1) ∧
        new.Nodup ∧
        (∀ x, x ∈ (addSimilar ratioFn folder1 key1 entries g processed).2 ↔
          x ∈ processed ∨ x ∈ new) := by
  intro entries
  induction entries with
  | nil =>
    intro g processed
    exact ⟨[], by simp [addSimilar], by simp [addSimilar], by simp, List.nodup_nil,
      by simp [addSimilar]⟩
  | cons e rest ih =>
    intro g processed
    obtain ⟨f2, k2, fs2⟩ := e
    rw [addSimilar]
    by_cases hc : folder1 ≠ f2 ∧ f2 ∉ processed ∧ k2 ≠ "" ∧ ratioFn key1 k2 > similarityThreshold
    · rw [if_pos hc]
      obtain ⟨new2, hsim, hbase, hfresh, hnodup, hiff⟩ :=
        ih ⟨g.base_folder, g.similar_folders ++ [f2],
          g.similarity_scores ++ [ratioFn key1 k2], g.files ++ fs2⟩ (f2 :: processed)
      refine ⟨f2 :: new2, ?_, hbase, ?_, ?_, ?_⟩
      · rw [hsim]
        simp
      · intro x hx
        rcases List.mem_cons.mp hx with rfl | hx
        · exact ⟨hc.2.1, fun he => hc.1 he.symm⟩
        · have := (hfresh x hx).1
          rw [List.mem_cons] at this
          push_neg at this
          exact ⟨this.2, (hfresh x hx).2⟩
      · rw [List.nodup_cons]
        refine ⟨fun hmem => ?_, hnodup⟩
        have := (hfresh f2 hmem).1
        simp at this
      · intro x
        rw [hiff x, List.mem_cons, List.mem_cons]
        tauto
    · rw [if_neg hc]
      exact ih g processed

/-- The outer grouping loop yields groups with pairwise-disjoint member
lists, all disjoint from the incoming processed set. -/
theorem groupFolders_nodup (ratioFn : String → String → ℚ)
    (all : List (String × String × List String)) :
    ∀ (pending : List (String × String × List String)) (processed : List String),
      ((groupFolders ratioFn all pending processed).flatMap MediaGroup.members).Nodup ∧
      ∀ x ∈ (groupFolders ratioFn all pending processed).flatMap MediaGroup.members,
        x ∉ processed := by
  intro pending
  induction pending with
  | nil =>
    intro processed
    simp [groupFolders]
  | cons e rest ih =>
    intro processed
    obtain ⟨f1, k1, fs1⟩ := e
    rw [groupFolders]
    by_cases hskip : f1 ∈ processed ∨ k1 = ""
    · rw [if_pos hskip]
      exact ih processed
    · rw [if_neg hskip]
      push_neg at hskip
      obtain ⟨new, hsim, hbase, hfresh, hnodup, hiff⟩ :=
        addSimilar_spec ratioFn f1 k1 all ⟨f1, [], [], fs1⟩ processed
      rw [List.nil_append] at hsim
      by_cases hne :
          (addSimilar ratioFn f1 k1 all ⟨f1, [], [], fs1⟩ processed).1.similar_folders ≠ []
      · rw [if_pos hne]
        obtain ⟨hnd2, hdisj2⟩ :=
          ih (f1 :: (addSimilar ratioFn f1 k1 all ⟨f1, [], [], fs1⟩ processed).2)
        rw [List.flatMap_cons]
        have hmembers :
            (addSimilar ratioFn f1 k1 all ⟨f1, [], [], fs1⟩ processed).1.members =
              f1 :: new := by
          rw [MediaGroup.members, hbase, hsim]
        rw [hmembers]
        constructor
        · rw [List.cons_append, List.nodup_cons]
          refine ⟨?_, ?_⟩
          · rw [List.mem_append]
            push_neg
            refine ⟨fun hmem => (hfresh f1 hmem).2 rfl, fun hmem => ?_⟩
            exact hdisj2 f1 hmem (List.mem_cons_self _ _)
          · rw [List.nodup_append]
            refine ⟨hnodup, hnd2, ?_⟩
            intro x hx hx2
            exact hdisj2 x hx2 (List.mem_cons_of_mem _ ((hiff x).mpr (Or.inr hx)))
        · intro x hx
          rw [List.cons_append, List.mem_cons, List.mem_append] at hx
          rcases hx with rfl | hx | hx
          · exact hskip.1
          · exact (hfresh x hx).1
          · intro hxp
            exact hdisj2 x hx
              (List.mem_cons_of_mem _ ((hiff x).mpr (Or.inl hxp)))
      · rw [if_neg hne]
        obtain ⟨hnd2, hdisj2⟩ :=
          ih (addSimilar ratioFn f1 k1 all ⟨f1, [], [], fs1⟩ processed).2
        refine ⟨hnd2, fun x hx hxp => ?_⟩
        exact hdisj2 x hx ((hiff x).mpr (Or.inl hxp))

/-- C3: across all duplicate groups the grouper returns, no folder name
occurs twice in the union of `{base} ∪ similar_folders`: a name assigned to
any group never joins a second group (nor appears twice in one). -/
theorem C3_groups_partition (ratioFn : String → String → ℚ)
    (folder_map : List (String × List String)) :
    ((find_similar_media_folders ratioFn folder_map).flatMap MediaGroup.members).Nodup := by
  rw [find_similar_media_folders]
  exact (groupFolders_nodup ratioFn _ _ []).1

/-- Every name the inner loop adds was admitted through the source's guard:
it appears in the scanned entries with a nonempty key whose ratio against
the base key strictly exceeds the threshold. -/
theorem addSimilar_cond (ratioFn : String → String → ℚ) (folder1 key1 : String) :
    ∀ (entries : List (String × String × List String)) (g : MediaGroup)
      (processed : List String) (x : String),
      x ∈ (addSimilar ratioFn folder1 key1 entries g processed).1.similar_folders →
      x ∈ g.similar_folders ∨
        ∃ k2 fs2, (x, k2, fs2) ∈ entries ∧ k2 ≠ "" ∧
          ratioFn key1 k2 > similarityThreshold := by
  intro entries
  induction entries with
  | nil =>
    intro g processed x hx
    rw [addSimilar] at hx
    exact Or.inl hx
  | cons e rest ih =>
    intro g processed x hx
    obtain ⟨f2, k2, fs2⟩ := e
    rw [addSimilar] at hx
    by_cases hc : folder1 ≠ f2 ∧ f2 ∉ processed ∧ k2 ≠ "" ∧ ratioFn key1 k2 > similarityThreshold
    · rw [if_pos hc] at hx
      rcases ih _ _ x hx with hg | ⟨k3, fs3, hmem, hk3, hr3⟩
      · rcases List.mem_append.mp hg with hg | hg
        · exact Or.inl hg
        · rw [List.mem_singleton] at hg
          subst hg
          exact Or.inr ⟨k2, fs2, List.mem_cons_self _ _, hc.2.2.1, hc.2.2.2⟩
      · exact Or.inr ⟨k3, fs3, List.mem_cons_of_mem _ hmem, hk3, hr3⟩
    · rw [if_neg hc] at hx
      rcases ih g processed x hx with hg | ⟨k3, fs3, hmem, hk3, hr3⟩
      · exact Or.inl hg
      · exact Or.inr ⟨k3, fs3, List.mem_cons_of_mem _ hmem, hk3, hr3⟩

/-- Every emitted group has a pending base entry with nonempty key, and all
its similar members passed the threshold guard against that key. -/
theorem groupFolders_cond (ratioFn : String → String → ℚ)
    (all : List (String × String × List String)) :
    ∀ (pending : List (String × String × List String)) (processed : List String)
      (g : MediaGroup), g ∈ groupFolders ratioFn all pending processed →
      ∃ k1 fs1, (g.base_folder, k1, fs1) ∈ pending ∧ k1 ≠ "" ∧
        ∀ x ∈ g.similar_folders, ∃ k2 fs2, (x, k2, fs2) ∈ all ∧ k2 ≠ "" ∧
          ratioFn k1 k2 > similarityThreshold := by
  intro pending
  induction pending with
  | nil =>
    intro processed g hg
    rw [groupFolders] at hg
    cases hg
  | cons e rest ih =>
    intro processed g hg
    obtain ⟨f1, k1, fs1⟩ := e
    rw [groupFolders] at hg
    by_cases hskip : f1 ∈ processed ∨ k1 = ""
    · rw [if_pos hskip] at hg
      obtain ⟨k2, fs2, hmem, hk2, hall⟩ := ih processed g hg
      exact ⟨k2, fs2, List.mem_cons_of_mem _ hmem, hk2, hall⟩
    · rw [if_neg hskip] at hg
      push_neg at hskip
      obtain ⟨new, hsim, hbase, _, _, _⟩ :=
        addSimilar_spec ratioFn f1 k1 all ⟨f1, [], [], fs1⟩ processed
      by_cases hne :
          (addSimilar ratioFn f1 k1 all ⟨f1, [], [], fs1⟩ processed).1.similar_folders ≠ []
      · rw [if_pos hne] at hg
        rcases List.mem_cons.mp hg with rfl | hg
        · refine ⟨k1, fs1, ?_, hskip.2, ?_⟩
          · rw [hbase]
            exact List.mem_cons_self _ _
          · intro x hx
            rcases addSimilar_cond ratioFn f1 k1 all ⟨f1, [], [], fs1⟩ processed x hx with
              hg0 | hok
            · cases hg0
            · exact hok
        · obtain ⟨k2, fs2, hmem, hk2, hall⟩ := ih _ g hg
          exact ⟨k2, fs2, List.mem_cons_of_mem _ hmem, hk2, hall⟩
      · rw [if_neg hne] at hg
        obtain ⟨k2, fs2, hmem, hk2, hall⟩ := ih _ g hg
        exact ⟨k2, fs2, List.mem_cons_of_mem _ hmem, hk2, hall⟩

/-- Membership in the cleaned entry list determines the key. -/
theorem mem_cleaned (folder_map : List (String × List String)) (a k : String)
    (fs : List String)
    (h : (a, k, fs) ∈ folder_map.map (fun p => (p.1, clean_media_name p.1, p.2))) :
    k = clean_media_name a := by
  rw [List.mem_map] at h
  obtain ⟨p, _, hp⟩ := h
  have ha : p.1 = a := congrArg Prod.fst hp
  have hk : clean_media_name p.1 = k := congrArg (fun t => t.2.1) hp
  rw [← hk, ha]

/-- C4: two distinct folder names are put in one duplicate group only when
the similarity ratio of their cleaned keys strictly exceeds `0.9` (so a
ratio of exactly `0.9` never groups), and a pair whose ratio exceeds the
threshold is grouped whenever both names are still unprocessed (here: the
two-folder index). -/
theorem C4_strict_threshold (ratioFn : String → String → ℚ) :
    (∀ (folder_map : List (String × List String)) (g : MediaGroup) (f2 : String),
      g ∈ find_similar_media_folders ratioFn folder_map → f2 ∈ g.similar_folders →
      clean_media_name g.base_folder ≠ "" ∧ clean_media_name f2 ≠ "" ∧
        ratioFn (clean_media_name g.base_folder) (clean_media_name f2) >
          similarityThreshold) ∧
    (∀ (n1 n2 : String) (l1 l2 : List String),
      n1 ≠ n2 → clean_media_name n1 ≠ "" → clean_media_name n2 ≠ "" →
      ratioFn (clean_media_name n1) (clean_media_name n2) > similarityThreshold →
      ∃ g ∈ find_similar_media_folders ratioFn [(n1, l1), (n2, l2)],
        g.base_folder = n1 ∧ n2 ∈ g.similar_folders) := by
  constructor
  · intro folder_map g f2 hg hf2
    rw [find_similar_media_folders] at hg
    obtain ⟨k1, fs1, hmem1, hk1, hall⟩ := groupFolders_cond ratioFn _ _ _ g hg
    obtain ⟨k2, fs2, hmem2, hk2, hr⟩ := hall f2 hf2
    have e1 := mem_cleaned folder_map _ _ _ hmem1
    have e2 := mem_cleaned folder_map _ _ _ hmem2
    subst e1
    subst e2
    exact ⟨hk1, hk2, hr⟩
  · intro n1 n2 l1 l2 hne h1 h2 hr
    have hno1 : ¬(n1 ≠ n1 ∧ (n1 : String) ∉ ([] : List String) ∧ clean_media_name n1 ≠ "" ∧
        ratioFn (clean_media_name n1) (clean_media_name n1) > similarityThreshold) :=
      fun hcond => hcond.1 rfl
    have hstep : addSimilar ratioFn n1 (clean_media_name n1)
        [(n1, clean_media_name n1, l1), (n2, clean_media_name n2, l2)]
        ⟨n1, [], [], l1⟩ [] =
        (⟨n1, [n2], [ratioFn (clean_media_name n1) (clean_media_name n2)], l1 ++ l2⟩,
          [n2]) := by
      rw [addSimilar, if_neg hno1]
      rw [addSimilar, if_pos ⟨hne, List.not_mem_nil _, h2, hr⟩]
      rw [addSimilar]
      simp
    rw [find_similar_media_folders]
    simp only [List.map_cons, List.map_nil]
    rw [groupFolders, if_neg (fun hcond => hcond.elim (List.not_mem_nil _) h1)]
    rw [hstep]
    rw [if_pos (List.cons_ne_nil n2 [])]
    exact ⟨_, List.mem_cons_self _ _, rfl, List.mem_singleton.mpr rfl⟩

/-- C4 witness: with a constant ratio of `0.91`, a two-folder index is
grouped, and the membership conclusion evaluates on a concretely produced
group. -/
theorem C4_witness :
    (clean_media_name "Movie.2020.1080p" ≠ "" ∧ clean_media_name "Movie 2020" ≠ "" ∧
      mkRat 91 100 > similarityThreshold) ∧
    (∃ g ∈ find_similar_media_folders (fun _ _ => mkRat 91 100)
        [("Show.Name.S01.1080p", []), ("Show Name", [])],
      g.base_folder = "Show.Name.S01.1080p" ∧ "Show Name" ∈ g.similar_folders) :=
  ⟨(C4_strict_threshold (fun _ _ => mkRat 91 100)).1
      [("Movie.2020.1080p", []), ("Movie 2020", [])]
      ⟨"Movie.2020.1080p", ["Movie 2020"], [mkRat 91 100], []⟩ "Movie 2020"
      (by decide) (by decide),
    (C4_strict_threshold (fun _ _ => mkRat 91 100)).2 "Show.Name.S01.1080p" "Show Name" [] []
      (by decide) (by decide) (by decide) (by decide)⟩

/-! ## Idempotence analysis of `clean_media_name` -/

/-- The removal passes at string level. -/
def removal_passes (s : String) : String := String.mk (removalPassesL s.data)

theorem toNat_ofNat_small (n : Nat) (h : n < 55296) : (Char.ofNat n).toNat = n := by
  have hv : n.isValidChar := Or.inl h
  simp [Char.ofNat, hv, Char.ofNatAux, Char.toNat, UInt32.toNat]

theorem pyLowerChar_idem (c : Char) : pyLowerChar (pyLowerChar c) = pyLowerChar c := by
  by_cases h : 65 ≤ c.toNat ∧ c.toNat ≤ 90
  · have h1 : pyLowerChar c = Char.ofNat (c.toNat + 32) := by rw [pyLowerChar, if_pos h]
    rw [h1, pyLowerChar,
      if_neg (by rw [toNat_ofNat_small (c.toNat + 32) (by omega)]; omega)]
  · have h1 : pyLowerChar c = c := by rw [pyLowerChar, if_neg h]
    rw [h1, h1]

theorem pyIsSpace_pyLowerChar (c : Char) : pyIsSpace (pyLowerChar c) = pyIsSpace c := by
  by_cases h : 65 ≤ c.toNat ∧ c.toNat ≤ 90
  · rw [pyLowerChar, if_pos h, pyIsSpace, pyIsSpace]
    rw [decide_eq_decide]
    rw [toNat_ofNat_small (c.toNat + 32) (by omega)]
    simp only [List.mem_cons, List.mem_nil_iff, or_false]
    omega
  · rw [pyLowerChar, if_neg h]

theorem isSepChar_pyLowerChar (c : Char) : isSepChar (pyLowerChar c) = isSepChar c := by
  by_cases h : 65 ≤ c.toNat ∧ c.toNat ≤ 90
  · rw [pyLowerChar, if_pos h, isSepChar, isSepChar]
    rw [decide_eq_decide]
    rw [toNat_ofNat_small (c.toNat + 32) (by omega)]
    simp only [List.mem_cons, List.mem_nil_iff, or_false]
    omega
  · rw [pyLowerChar, if_neg h]

/-- Well-formed word lists: nonempty words with no whitespace characters. -/
def wfWords (ws : List (List Char)) : Prop :=
  ∀ w ∈ ws, w ≠ [] ∧ ∀ c ∈ w, pyIsSpace c = false

/-- `str.split()` yields nonempty, whitespace-free words. -/
theorem splitWsAux_wf :
    ∀ (l acc : List Char), (∀ c ∈ acc, pyIsSpace c = false) →
      wfWords (splitWsAux l acc) := by
  intro l
  induction l with
  | nil =>
    intro acc hacc w hw
    rw [splitWsAux] at hw
    by_cases ha : acc = []
    · rw [if_pos ha] at hw
      cases hw
    · rw [if_neg ha] at hw
      rw [List.mem_singleton] at hw
      subst hw
      exact ⟨by simpa using ha, fun c hc => hacc c (List.mem_reverse.mp hc)⟩
  | cons c cs ih =>
    intro acc hacc w hw
    rw [splitWsAux] at hw
    by_cases hsp : pyIsSpace c
    · rw [if_pos hsp] at hw
      by_cases ha : acc = []
      · rw [if_pos ha] at hw
        exact ih [] (by simp) w hw
      · rw [if_neg ha] at hw
        rcases List.mem_cons.mp hw with rfl | hw
        · exact ⟨by simpa using ha, fun d hd => hacc d (List.mem_reverse.mp hd)⟩
        · exact ih [] (by simp) w hw
    · rw [if_neg hsp] at hw
      refine ih (c :: acc) ?_ w hw
      intro d hd
      rcases List.mem_cons.mp hd with rfl | hd
      · exact Bool.eq_false_iff.mpr hsp
      · exact hacc d hd

/-- The split scanner consumes a whitespace-free word into the accumulator. -/
theorem splitWsAux_consume :
    ∀ (w l acc : List Char), (∀ c ∈ w, pyIsSpace c = false) →
      splitWsAux (w ++ l) acc = splitWsAux l (w.reverse ++ acc) := by
  intro w
  induction w with
  | nil => intro l acc _; simp
  | cons c w2 ih =>
    intro l acc hw
    rw [List.cons_append, splitWsAux,
      if_neg (by simp [hw c (List.mem_cons_self c w2)])]
    rw [ih l (c :: acc) (fun d hd => hw d (List.mem_cons_of_mem c hd))]
    simp

/-- Splitting a well-formed join recovers the word list. -/
theorem splitWs_joinSpace : ∀ (ws : List (List Char)), wfWords ws →
    pySplitWsL (joinSpace ws) = ws := by
  intro ws
  induction ws with
  | nil => intro _; rfl
  | cons w rest ih =>
    intro hwf
    have hw := hwf w (List.mem_cons_self w rest)
    cases rest with
    | nil =>
      rw [joinSpace, pySplitWsL]
      have : w = w ++ [] := by simp
      rw [this, splitWsAux_consume w [] [] hw.2]
      rw [splitWsAux, if_neg (by simpa using hw.1)]
      simp
    | cons w2 rest2 =>
      rw [joinSpace, pySplitWsL, splitWsAux_consume w (' ' :: joinSpace (w2 :: rest2)) [] hw.2]
      rw [splitWsAux, if_pos (by decide)]
      rw [if_neg (by simpa using hw.1)]
      rw [List.append_nil, List.reverse_reverse]
      have := ih (fun v hv => hwf v (List.mem_cons_of_mem w hv))
      rw [pySplitWsL] at this
      rw [this]
      exact fun hcontra => List.cons_ne_nil _ _ hcontra

theorem joinSpace_cons_cons (w w2 : List Char) (rest : List (List Char)) :
    joinSpace (w :: w2 :: rest) = w ++ ' ' :: joinSpace (w2 :: rest) := rfl

theorem lowerL_joinSpace : ∀ ws : List (List Char),
    lowerL (joinSpace ws) = joinSpace (ws.map lowerL) := by
  intro ws
  induction ws with
  | nil => rfl
  | cons w rest ih =>
    cases rest with
    | nil => rfl
    | cons w2 rest2 =>
      have ih2 := ih
      rw [List.map_cons] at ih2
      rw [joinSpace_cons_cons, List.map_cons, List.map_cons, joinSpace_cons_cons]
      rw [lowerL, List.map_append, List.map_cons]
      rw [show List.map pyLowerChar (joinSpace (w2 :: rest2)) =
        lowerL (joinSpace (w2 :: rest2)) from rfl]
      rw [ih2]
      rfl

theorem mem_joinSpace : ∀ (ws : List (List Char)) (c : Char), c ∈ joinSpace ws →
    (∃ w ∈ ws, c ∈ w) ∨ c = ' ' := by
  intro ws
  induction ws with
  | nil => intro c hc; cases hc
  | cons w rest ih =>
    cases rest with
    | nil =>
      intro c hc
      rw [joinSpace] at hc
      exact Or.inl ⟨w, List.mem_cons_self _ _, hc⟩
    | cons w2 rest2 =>
      intro c hc
      rw [joinSpace_cons_cons] at hc
      rcases List.mem_append.mp hc with hc | hc
      · exact Or.inl ⟨w, List.mem_cons_self _ _, hc⟩
      · rcases List.mem_cons.mp hc with rfl | hc
        · exact Or.inr rfl
        · rcases ih c hc with ⟨v, hv, hcv⟩ | hsp
          · exact Or.inl ⟨v, List.mem_cons_of_mem _ hv, hcv⟩
          · exact Or.inr hsp

theorem dropWhile_joinSpace : ∀ ws : List (List Char), wfWords ws →
    (joinSpace ws).dropWhile pyIsSpace = joinSpace ws := by
  intro ws hwf
  cases ws with
  | nil => rfl
  | cons w rest =>
    have hw := hwf w (List.mem_cons_self w rest)
    obtain ⟨c, w2, rfl⟩ : ∃ c w2, w = c :: w2 := by
      cases w with
      | nil => exact absurd rfl hw.1
      | cons c w2 => exact ⟨c, w2, rfl⟩
    have hc : pyIsSpace c = false := hw.2 c (List.mem_cons_self _ _)
    cases rest with
    | nil =>
      rw [joinSpace, List.dropWhile_cons_of_neg (by simp [hc])]
    | cons v rest2 =>
      rw [joinSpace_cons_cons, List.cons_append,
        List.dropWhile_cons_of_neg (by simp [hc])]

theorem joinSpace_append_singleton : ∀ (ms : List (List Char)) (v : List Char), ms ≠ [] →
    joinSpace (ms ++ [v]) = joinSpace ms ++ ' ' :: v := by
  intro ms
  induction ms with
  | nil => intro v h; exact absurd rfl h
  | cons m rest ih =>
    intro v _
    cases rest with
    | nil => rfl
    | cons m2 rest2 =>
      rw [List.cons_append, List.cons_append, joinSpace_cons_cons, ← List.cons_append,
        ih v (List.cons_ne_nil _ _), joinSpace_cons_cons]
      simp

theorem reverse_joinSpace : ∀ ws : List (List Char),
    (joinSpace ws).reverse = joinSpace ((ws.map List.reverse).reverse) := by
  intro ws
  induction ws with
  | nil => rfl
  | cons w rest ih =>
    cases rest with
    | nil => rfl
    | cons w2 rest2 =>
      rw [joinSpace_cons_cons, List.reverse_append, List.reverse_cons]
      rw [ih]
      rw [show List.map List.reverse (w :: w2 :: rest2) =
        w.reverse :: List.map List.reverse (w2 :: rest2) from rfl]
      rw [List.reverse_cons, joinSpace_append_singleton _ _ (by simp)]
      simp

theorem wfWords_reverse_map (ws : List (List Char)) (h : wfWords ws) :
    wfWords ((ws.map List.reverse).reverse) := by
  intro w hw
  rw [List.mem_reverse, List.mem_map] at hw
  obtain ⟨v, hv, rfl⟩ := hw
  obtain ⟨hne, hch⟩ := h v hv
  exact ⟨by simpa using hne, fun c hc => hch c (List.mem_reverse.mp hc)⟩

theorem pyStripL_joinSpace (ws : List (List Char)) (hwf : wfWords ws) :
    pyStripL (joinSpace ws) = joinSpace ws := by
  rw [pyStripL, dropWhile_joinSpace ws hwf, dropTrailing]
  rw [reverse_joinSpace ws, dropWhile_joinSpace _ (wfWords_reverse_map ws hwf)]
  rw [← reverse_joinSpace ws, List.reverse_reverse]

/-- Characters of split words come from the input (or the accumulator). -/
theorem splitWsAux_chars :
    ∀ (l acc : List Char), ∀ w ∈ splitWsAux l acc, ∀ c ∈ w, c ∈ l ∨ c ∈ acc := by
  intro l
  induction l with
  | nil =>
    intro acc w hw c hc
    rw [splitWsAux] at hw
    by_cases ha : acc = []
    · rw [if_pos ha] at hw
      cases hw
    · rw [if_neg ha] at hw
      rw [List.mem_singleton] at hw
      subst hw
      exact Or.inr (List.mem_reverse.mp hc)
  | cons c0 cs ih =>
    intro acc w hw c hc
    rw [splitWsAux] at hw
    by_cases hsp : pyIsSpace c0
    · rw [if_pos hsp] at hw
      by_cases ha : acc = []
      · rw [if_pos ha] at hw
        rcases ih [] w hw c hc with h | h
        · exact Or.inl (List.mem_cons_of_mem _ h)
        · cases h
      · rw [if_neg ha] at hw
        rcases List.mem_cons.mp hw with rfl | hw
        · exact Or.inr (List.mem_reverse.mp hc)
        · rcases ih [] w hw c hc with h | h
          · exact Or.inl (List.mem_cons_of_mem _ h)
          · cases h
    · rw [if_neg hsp] at hw
      rcases ih (c0 :: acc) w hw c hc with h | h
      · exact Or.inl (List.mem_cons_of_mem _ h)
      · rcases List.mem_cons.mp h with rfl | h
        · exact Or.inl (List.mem_cons_self _ _)
        · exact Or.inr h

theorem isSepChar_sepSubL (l : List Char) : ∀ c ∈ sepSubL l, isSepChar c = false := by
  intro c hc
  rw [sepSubL, List.mem_map] at hc
  obtain ⟨d, _, rfl⟩ := hc
  rw [sepCharMap]
  by_cases hd : isSepChar d
  · rw [if_pos hd]
    decide
  · rw [if_neg hd]
    exact Bool.eq_false_iff.mpr hd

theorem sepSubL_id : ∀ l : List Char, (∀ c ∈ l, isSepChar c = false) → sepSubL l = l := by
  intro l
  induction l with
  | nil => intro _; rfl
  | cons c cs ih =>
    intro h
    rw [sepSubL, List.map_cons]
    rw [show sepCharMap c = c from by
      rw [sepCharMap, if_neg (by simp [h c (List.mem_cons_self c cs)])]]
    rw [show List.map sepCharMap cs = sepSubL cs from rfl,
      ih (fun d hd => h d (List.mem_cons_of_mem c hd))]

theorem lowerL_idem (w : List Char) : lowerL (lowerL w) = lowerL w := by
  rw [lowerL, lowerL, List.map_map]
  exact List.map_congr_left (fun c _ => pyLowerChar_idem c)

theorem wfWords_map_lowerL (m : List Char) :
    wfWords ((pySplitWsL m).map lowerL) := by
  intro w hw
  rw [List.mem_map] at hw
  obtain ⟨v, hv, rfl⟩ := hw
  obtain ⟨hne, hch⟩ := splitWsAux_wf m [] (by simp) v hv
  refine ⟨by simpa [lowerL] using hne, ?_⟩
  intro c hc
  rw [lowerL, List.mem_map] at hc
  obtain ⟨d, hd, rfl⟩ := hc
  rw [pyIsSpace_pyLowerChar]
  exact hch d hd

/-- The cleaned name is a well-formed, already lower-cased word join. -/
theorem cleanL_shape (l : List Char) :
    ∃ ws, wfWords ws ∧ cleanL l = joinSpace ws ∧ ws.map lowerL = ws := by
  refine ⟨(pySplitWsL (sepSubL (removalPassesL l))).map lowerL,
    wfWords_map_lowerL _, ?_, ?_⟩
  · rw [cleanL, normSpaceL, lowerL_joinSpace, pyStripL_joinSpace _ (wfWords_map_lowerL _)]
  · rw [List.map_map]
    exact List.map_congr_left (fun v _ => lowerL_idem v)

theorem mem_dropTrailing {p : Char → Bool} {m : List Char} {c : Char}
    (h : c ∈ dropTrailing p m) : c ∈ m := by
  rw [dropTrailing, List.mem_reverse] at h
  exact List.mem_reverse.mp ((List.dropWhile_sublist p).subset h)

theorem mem_pyStripL {m : List Char} {c : Char} (h : c ∈ pyStripL m) : c ∈ m := by
  rw [pyStripL] at h
  exact (List.dropWhile_sublist pyIsSpace).subset (mem_dropTrailing h)

/-- No separator character survives cleaning. -/
theorem cleanL_no_sep (l : List Char) : ∀ c ∈ cleanL l, isSepChar c = false := by
  intro c hc
  rw [cleanL] at hc
  have hc2 := mem_pyStripL hc
  rw [lowerL, List.mem_map] at hc2
  obtain ⟨d, hd, rfl⟩ := hc2
  rw [isSepChar_pyLowerChar]
  rw [normSpaceL] at hd
  rcases mem_joinSpace _ d hd with ⟨w, hw, hdw⟩ | rfl
  · rcases splitWsAux_chars (sepSubL (removalPassesL l)) [] w hw d hdw with h | h
    · exact isSepChar_sepSubL _ d h
    · cases h
  · decide

theorem clean_media_name_eq (s : String) :
    clean_media_name s = String.mk (cleanL s.data) := rfl

theorem data_mk (l : List Char) : (String.mk l).data = l := rfl

/-- C5 (amended): `clean_media_name` is idempotent at every input whose
cleaned character list is left unchanged by the metadata-removal passes (the
year substitution and the quality/source substitutions). In general
idempotence fails: removing a quality token can expose a fresh year
pattern — see `C5_counterexample`. -/
theorem C5_conditional_idempotent (s : String)
    (hd : removalPassesL (cleanL s.data) = cleanL s.data) :
    clean_media_name (clean_media_name s) = clean_media_name s := by
  obtain ⟨ws, hwf, hshape, hmap⟩ := cleanL_shape s.data
  have hnosep : ∀ c ∈ cleanL s.data, isSepChar c = false := cleanL_no_sep s.data
  have hlist : cleanL (cleanL s.data) = cleanL s.data := by
    calc cleanL (cleanL s.data)
        = pyStripL (lowerL (normSpaceL (sepSubL (removalPassesL (cleanL s.data))))) := rfl
      _ = pyStripL (lowerL (normSpaceL (sepSubL (cleanL s.data)))) := by rw [hd]
      _ = pyStripL (lowerL (normSpaceL (cleanL s.data))) := by rw [sepSubL_id _ hnosep]
      _ = pyStripL (lowerL (normSpaceL (joinSpace ws))) := by rw [hshape]
      _ = pyStripL (lowerL (joinSpace ws)) := by rw [normSpaceL, splitWs_joinSpace ws hwf]
      _ = pyStripL (joinSpace (ws.map lowerL)) := by rw [lowerL_joinSpace]
      _ = pyStripL (joinSpace ws) := by rw [hmap]
      _ = joinSpace ws := pyStripL_joinSpace ws hwf
      _ = cleanL s.data := hshape.symm
  rw [clean_media_name_eq s, clean_media_name_eq (String.mk (cleanL s.data)), data_mk]
  exact congrArg String.mk hlist

/-- C5 counterexample: the claim `clean_media_name (clean_media_name x) =
clean_media_name x` for all `x` is false. At `"(20x26420)"` the first pass
removes the `x264` token, exposing the year pattern `(2020)`, which only the
second pass removes: the first pass returns `"(2020)"`, the second `""`. -/
theorem C5_counterexample :
    clean_media_name (clean_media_name "(20x26420)") ≠
      clean_media_name "(20x26420)" := by decide

/-- C5 witness: a typical release name whose cleaned form carries no
removable pattern is a fixed point of a second cleaning pass. -/
theorem C5_witness :
    removalPassesL (cleanL "The.Movie.2020.1080p.BluRay.x264-GRP".data) =
      cleanL "The.Movie.2020.1080p.BluRay.x264-GRP".data ∧
    clean_media_name (clean_media_name "The.Movie.2020.1080p.BluRay.x264-GRP") =
      clean_media_name "The.Movie.2020.1080p.BluRay.x264-GRP" :=
  ⟨by decide, C5_conditional_idempotent _ (by decide)⟩
